import Mathlib

/-!
# go-sec-edgar-ws: the HTML-to-PDF HTTP service

A shallow embedding of `go-sec-edgar-ws/main.go` (handlers `pdfHandler` and
`rootHandler`) together with the parts of the Go standard library and of
`go-wkhtmltopdf` that the handlers call:

* Go strings and byte slices are byte sequences (`Bytes`).
* `encoding/json`: the scanner grammar, `Decoder.Decode` on a fresh decoder
  and the unmarshalling of one JSON value into a `RequestBody`.
* `net/http`: a `ResponseWriter` with the semantics of a response recorder
  (live header map, header snapshot taken by the first `WriteHeader`,
  implicit `WriteHeader(200)` on the first `Write`), and `http.Error`.
* `go-wkhtmltopdf`: the generator fields the handler touches; whether
  `NewPDFGenerator` and `Create` succeed, and what `Create` produces, is an
  environment parameter (`Env`).
-/

namespace GoSecEdgarWs

/-- A Go `string` or `[]byte`: a sequence of bytes. -/
abbrev Bytes := List UInt8

/-- The bytes of a Go string constant written as a Lean literal (UTF-8). -/
def go (s : String) : Bytes := s.toUTF8.data.toList

/-! ## unicode/utf8 -/

namespace utf8

/-- Constant `utf8.RuneError` (U+FFFD). -/
def RuneError : Nat := 0xFFFD

/-- Continuation byte test, `locb <= b && b <= hicb`. -/
def isCont (b : UInt8) : Bool := 0x80 ≤ b && b ≤ 0xBF

/-- Function `utf8.DecodeRune`: the first rune of `p` and its width in bytes.
Any ill-formed or truncated sequence gives `(RuneError, 1)`; empty input
gives `(RuneError, 0)`. -/
def DecodeRune (p : Bytes) : Nat × Nat :=
  match p with
  | [] => (RuneError, 0)
  | p0 :: rest =>
    if p0 < 0x80 then (p0.toNat, 1)
    else if p0 < 0xC2 then (RuneError, 1)
    else if p0 < 0xE0 then
      match rest with
      | b1 :: _ =>
        if isCont b1 then ((p0.toNat % 32) * 64 + b1.toNat % 64, 2) else (RuneError, 1)
      | _ => (RuneError, 1)
    else if p0 < 0xF0 then
      match rest with
      | b1 :: b2 :: _ =>
        let lo : UInt8 := if p0 == 0xE0 then 0xA0 else 0x80
        let hi : UInt8 := if p0 == 0xED then 0x9F else 0xBF
        if b1 < lo || hi < b1 then (RuneError, 1)
        else if !isCont b2 then (RuneError, 1)
        else ((p0.toNat % 16) * 4096 + (b1.toNat % 64) * 64 + b2.toNat % 64, 3)
      | _ => (RuneError, 1)
    else if p0 < 0xF5 then
      match rest with
      | b1 :: b2 :: b3 :: _ =>
        let lo : UInt8 := if p0 == 0xF0 then 0x90 else 0x80
        let hi : UInt8 := if p0 == 0xF4 then 0x8F else 0xBF
        if b1 < lo || hi < b1 then (RuneError, 1)
        else if !isCont b2 then (RuneError, 1)
        else if !isCont b3 then (RuneError, 1)
        else ((p0.toNat % 8) * 262144 + (b1.toNat % 64) * 4096 + (b2.toNat % 64) * 64
                + b3.toNat % 64, 4)
      | _ => (RuneError, 1)
    else (RuneError, 1)

/-- Function `utf8.EncodeRune` / `utf8.AppendRune`: the UTF-8 encoding of a
rune; surrogates and out-of-range values are encoded as `RuneError`. -/
def EncodeRune (r : Nat) : Bytes :=
  if r < 0x80 then [r.toUInt8]
  else if r < 0x800 then [(0xC0 + r / 64).toUInt8, (0x80 + r % 64).toUInt8]
  else if r > 0x10FFFF || (0xD800 ≤ r && r ≤ 0xDFFF) then [0xEF, 0xBF, 0xBD]
  else if r < 0x10000 then
    [(0xE0 + r / 4096).toUInt8, (0x80 + (r / 64) % 64).toUInt8, (0x80 + r % 64).toUInt8]
  else
    [(0xF0 + r / 262144).toUInt8, (0x80 + (r / 4096) % 64).toUInt8,
     (0x80 + (r / 64) % 64).toUInt8, (0x80 + r % 64).toUInt8]

end utf8

/-! ## encoding/json -/

namespace json

/-- A parsed JSON value. Strings (and object keys) keep their raw, still
escaped bytes between the quotes; numbers keep their literal. -/
inductive Value where
  | null
  | bool (b : Bool)
  | number (lit : Bytes)
  | string (raw : Bytes)
  | array (elems : List Value)
  | object (members : List (Bytes × Value))

/-- The scanner's `isSpace`. -/
def isSpace (c : UInt8) : Bool := c == 0x20 || c == 0x09 || c == 0x0D || c == 0x0A

/-- Drop leading JSON whitespace. -/
def skipSpace : Bytes → Bytes
  | [] => []
  | c :: cs => if isSpace c then skipSpace cs else c :: cs

/-- Decimal digit test. -/
def isDigit (c : UInt8) : Bool := 0x30 ≤ c && c ≤ 0x39

/-- Hexadecimal digit test of `stateInStringEscU`. -/
def isHex (c : UInt8) : Bool :=
  (0x30 ≤ c && c ≤ 0x39) || (0x61 ≤ c && c ≤ 0x66) || (0x41 ≤ c && c ≤ 0x46)

/-- The escape letters accepted by `stateInStringEsc` besides `u`. -/
def isEscape (c : UInt8) : Bool :=
  c == 0x62 || c == 0x66 || c == 0x6E || c == 0x72 || c == 0x74 ||
  c == 0x5C || c == 0x2F || c == 0x22

/-- The leading run of digits and what follows it. -/
def takeDigits : Bytes → Bytes × Bytes
  | [] => ([], [])
  | c :: cs =>
    if isDigit c then ((takeDigits cs).1.cons c, (takeDigits cs).2) else ([], c :: cs)

/-- Scanner states `stateInString`, `stateInStringEsc`, `stateInStringEscU*`:
the input is what follows the opening quote; the result is the raw bytes up
to the closing quote and the input after it. -/
def scanString : Bytes → Option (Bytes × Bytes)
  | [] => none
  | c :: cs =>
    if c == 0x22 then some ([], cs)
    else if c == 0x5C then
      match cs with
      | [] => none
      | e :: es =>
        if e == 0x75 then
          match es with
          | h1 :: h2 :: h3 :: h4 :: rest =>
            if isHex h1 && isHex h2 && isHex h3 && isHex h4 then
              (scanString rest).map
                (fun p => (c :: e :: h1 :: h2 :: h3 :: h4 :: p.1, p.2))
            else none
          | _ => none
        else if isEscape e then (scanString es).map (fun p => (c :: e :: p.1, p.2))
        else none
    else if c < 0x20 then none
    else (scanString cs).map (fun p => (c :: p.1, p.2))

/-- Scanner states `stateDot`, `stateDot0`: an optional fraction. -/
def scanFrac (data : Bytes) : Option (Bytes × Bytes) :=
  match data with
  | c :: cs =>
    if c == 0x2E then
      match takeDigits cs with
      | ([], _) => none
      | (ds, rest) => some (c :: ds, rest)
    else some ([], data)
  | [] => some ([], [])

/-- Scanner states `stateE`, `stateESign`, `stateE0`: an optional exponent. -/
def scanExp (data : Bytes) : Option (Bytes × Bytes) :=
  match data with
  | c :: cs =>
    if c == 0x65 || c == 0x45 then
      let sign : Bytes × Bytes :=
        match cs with
        | s :: ss => if s == 0x2B || s == 0x2D then ([s], ss) else ([], cs)
        | [] => ([], [])
      match takeDigits sign.2 with
      | ([], _) => none
      | (ds, rest) => some (c :: (sign.1 ++ ds), rest)
    else some ([], data)
  | [] => some ([], [])

/-- Scanner states `state0`, `state1` and what follows: the input starts at
the first digit of a number. -/
def scanDigits (data : Bytes) : Option (Bytes × Bytes) :=
  match data with
  | c :: cs =>
    if c == 0x30 then
      (scanFrac cs).bind fun f => (scanExp f.2).map fun e => (c :: (f.1 ++ e.1), e.2)
    else if isDigit c then
      let ds := takeDigits cs
      (scanFrac ds.2).bind fun f =>
        (scanExp f.2).map fun e => (c :: (ds.1 ++ f.1 ++ e.1), e.2)
    else none
  | [] => none

/-- Scanner states `stateT..`, `stateF..`, `stateN..`: the remaining letters
of a literal. -/
def scanLiteral (word : Bytes) (data : Bytes) : Option Bytes :=
  match word, data with
  | [], rest => some rest
  | w :: ws, c :: cs => if c == w then scanLiteral ws cs else none
  | _ :: _, [] => none

/-- Constant `maxNestingDepth` of the scanner. -/
def maxNestingDepth : Nat := 10000

mutual
/-- States `stateBeginValue` and onwards: one JSON value at nesting depth
`depth`, after optional leading whitespace; the result is the value and the
input after its last byte. -/
def parseValue : Nat → Nat → Bytes → Option (Value × Bytes)
  | 0, _, _ => none
  | fuel + 1, depth, data =>
    match skipSpace data with
    | [] => none
    | c :: cs =>
      if c == 0x7B then
        if depth + 1 > maxNestingDepth then none
        else
          match skipSpace cs with
          | [] => none
          | d :: ds =>
            if d == 0x7D then some (Value.object [], ds)
            else (parseMembers fuel (depth + 1) (d :: ds)).map
              (fun p => (Value.object p.1, p.2))
      else if c == 0x5B then
        if depth + 1 > maxNestingDepth then none
        else
          match skipSpace cs with
          | [] => none
          | d :: ds =>
            if d == 0x5D then some (Value.array [], ds)
            else (parseElements fuel (depth + 1) (d :: ds)).map
              (fun p => (Value.array p.1, p.2))
      else if c == 0x22 then (scanString cs).map (fun p => (Value.string p.1, p.2))
      else if c == 0x2D then (scanDigits cs).map (fun p => (Value.number (c :: p.1), p.2))
      else if isDigit c then (scanDigits (c :: cs)).map (fun p => (Value.number p.1, p.2))
      else if c == 0x74 then (scanLiteral (go "rue") cs).map (fun r => (Value.bool true, r))
      else if c == 0x66 then (scanLiteral (go "alse") cs).map (fun r => (Value.bool false, r))
      else if c == 0x6E then (scanLiteral (go "ull") cs).map (fun r => (Value.null, r))
      else none
/-- The members of a non-empty object, from a key up to the closing brace
(parse states `parseObjectKey` and `parseObjectValue`). -/
def parseMembers : Nat → Nat → Bytes → Option (List (Bytes × Value) × Bytes)
  | 0, _, _ => none
  | fuel + 1, depth, data =>
    match skipSpace data with
    | [] => none
    | q :: qs =>
      if q == 0x22 then
        match scanString qs with
        | none => none
        | some (key, afterKey) =>
          match skipSpace afterKey with
          | [] => none
          | colon :: afterColon =>
            if colon == 0x3A then
              match parseValue fuel depth afterColon with
              | none => none
              | some (v, afterValue) =>
                match skipSpace afterValue with
                | [] => none
                | sep :: afterSep =>
                  if sep == 0x2C then
                    (parseMembers fuel depth afterSep).map
                      (fun p => ((key, v) :: p.1, p.2))
                  else if sep == 0x7D then some ([(key, v)], afterSep)
                  else none
            else none
      else none
/-- The elements of a non-empty array, from a value up to the closing
bracket (parse state `parseArrayValue`). -/
def parseElements : Nat → Nat → Bytes → Option (List Value × Bytes)
  | 0, _, _ => none
  | fuel + 1, depth, data =>
    match parseValue fuel depth data with
    | none => none
    | some (v, afterValue) =>
      match skipSpace afterValue with
      | [] => none
      | sep :: afterSep =>
        if sep == 0x2C then
          (parseElements fuel depth afterSep).map (fun p => (v :: p.1, p.2))
        else if sep == 0x5D then some ([v], afterSep)
        else none
end

/-- The fuel that `parseValue` is run with on `data`: every two nested calls
consume at least one byte. -/
def fuelFor (data : Bytes) : Nat := 2 * data.length + 2

/-- Function `json.Valid`: the whole of `data` is one JSON value, with
optional whitespace around it. -/
def Valid (data : Bytes) : Bool :=
  match parseValue (fuelFor data) 0 data with
  | some (_, rest) => skipSpace rest == []
  | none => false

/-- The value of one hexadecimal digit. -/
def hexVal (c : UInt8) : Nat :=
  if 0x30 ≤ c && c ≤ 0x39 then c.toNat - 0x30
  else if 0x61 ≤ c && c ≤ 0x66 then c.toNat - 0x61 + 10
  else c.toNat - 0x41 + 10

/-- Function `getu4`: the code unit of a leading `\uXXXX`, or `none` (Go: -1). -/
def getu4 (s : Bytes) : Option Nat :=
  match s with
  | b :: u :: h1 :: h2 :: h3 :: h4 :: _ =>
    if b == 0x5C && u == 0x75 && isHex h1 && isHex h2 && isHex h3 && isHex h4 then
      some (((hexVal h1 * 16 + hexVal h2) * 16 + hexVal h3) * 16 + hexVal h4)
    else none
  | _ => none

/-- Function `utf16.DecodeRune`, with `none` for a second operand of -1. -/
def utf16DecodeRune (r1 : Nat) (r2 : Option Nat) : Nat :=
  match r2 with
  | some r2 =>
    if 0xD800 ≤ r1 && r1 < 0xDC00 && 0xDC00 ≤ r2 && r2 < 0xE000 then
      (r1 - 0xD800) * 1024 + (r2 - 0xDC00) + 0x10000
    else 0xFFFD
  | none => 0xFFFD

/-- The loop of `unquoteBytes` over the bytes between the quotes. -/
def unquoteLoop : Nat → Bytes → Option Bytes
  | 0, _ => none
  | _ + 1, [] => some []
  | fuel + 1, c :: cs =>
    if c == 0x5C then
      match cs with
      | [] => none
      | e :: es =>
        if e == 0x22 || e == 0x5C || e == 0x2F || e == 0x27 then
          (unquoteLoop fuel es).map (fun t => e :: t)
        else if e == 0x62 then (unquoteLoop fuel es).map (fun t => 0x08 :: t)
        else if e == 0x66 then (unquoteLoop fuel es).map (fun t => 0x0C :: t)
        else if e == 0x6E then (unquoteLoop fuel es).map (fun t => 0x0A :: t)
        else if e == 0x72 then (unquoteLoop fuel es).map (fun t => 0x0D :: t)
        else if e == 0x74 then (unquoteLoop fuel es).map (fun t => 0x09 :: t)
        else if e == 0x75 then
          match getu4 (c :: cs) with
          | none => none
          | some rr =>
            let rest := es.drop 4
            if 0xD800 ≤ rr && rr < 0xE000 then
              let dec := utf16DecodeRune rr (getu4 rest)
              if dec != 0xFFFD then
                (unquoteLoop fuel (rest.drop 6)).map (fun t => utf8.EncodeRune dec ++ t)
              else (unquoteLoop fuel rest).map (fun t => utf8.EncodeRune 0xFFFD ++ t)
            else (unquoteLoop fuel rest).map (fun t => utf8.EncodeRune rr ++ t)
        else none
    else if c == 0x22 || c < 0x20 then none
    else if c < 0x80 then (unquoteLoop fuel cs).map (fun t => c :: t)
    else
      let d := utf8.DecodeRune (c :: cs)
      (unquoteLoop fuel ((c :: cs).drop d.2)).map (fun t => utf8.EncodeRune d.1 ++ t)

/-- Function `unquoteBytes`, applied to the bytes between the quotes of a
string literal: escapes are resolved and ill-formed UTF-8 is replaced by
U+FFFD. The result is `none` where Go returns `ok = false`. -/
def unquoteBytes (raw : Bytes) : Option Bytes := unquoteLoop (raw.length + 1) raw

/-- The errors `Decoder.Decode` can return on an in-memory body. -/
inductive Err where
  | EOF
  | SyntaxError
  | UnmarshalTypeError (value : String)
  | phase
  deriving DecidableEq, Repr

/-- ASCII upper-casing of one byte, as in `foldName`. -/
def toUpper (c : UInt8) : UInt8 := if 0x61 ≤ c && c ≤ 0x7A then c - 0x20 else c

/-- Field lookup of `decodeState.object`: an exact match of the name, else a
case-insensitive one. For the name `html` no non-ASCII rune folds to one of
its letters, so folding is ASCII upper-casing. -/
def matchesField (name key : Bytes) : Bool :=
  key == name || key.map toUpper == name.map toUpper

end json

/-- Type `RequestBody`: the structure of the incoming JSON payload. -/
structure RequestBody where
  HTML : Bytes
  deriving DecidableEq, Repr

namespace json

/-- The decoding state that matters here: the target and `savedError`. -/
abbrev State := RequestBody × Option Err

/-- Method `decodeState.saveError`: only the first error is kept. -/
def saveError (st : State) (e : Err) : State :=
  match st.2 with
  | some _ => st
  | none => (st.1, some e)

/-- Storing a JSON value into the field `HTML` (a Go `string`): a string is
unquoted and stored, `null` leaves the field as it is, and any other value
is skipped with an `UnmarshalTypeError` saved. -/
def storeHTML (val : Value) (st : State) : State :=
  match val with
  | Value.null => st
  | Value.string raw =>
    match unquoteBytes raw with
    | some s => ({ st.1 with HTML := s }, st.2)
    | none => saveError st Err.phase
  | Value.bool _ => saveError st (Err.UnmarshalTypeError "bool")
  | Value.number _ => saveError st (Err.UnmarshalTypeError "number")
  | Value.array _ => saveError st (Err.UnmarshalTypeError "array")
  | Value.object _ => saveError st (Err.UnmarshalTypeError "object")

/-- One member of an object decoded into a `RequestBody`: a key that names
the field `html` stores the value, another key is skipped. -/
def member (st : State) (kv : Bytes × Value) : State :=
  match unquoteBytes kv.1 with
  | none => saveError st Err.phase
  | some key => if matchesField (go "html") key then storeHTML kv.2 st else st

/-- Method `decodeState.unmarshal` for a `*RequestBody` target: an object
is decoded member by member in input order, `null` is a no-op, and any
other value is an `UnmarshalTypeError`. -/
def unmarshal (val : Value) (v : RequestBody) : State :=
  match val with
  | Value.null => (v, none)
  | Value.object members => members.foldl member (v, none)
  | Value.bool _ => (v, some (Err.UnmarshalTypeError "bool"))
  | Value.number _ => (v, some (Err.UnmarshalTypeError "number"))
  | Value.string _ => (v, some (Err.UnmarshalTypeError "string"))
  | Value.array _ => (v, some (Err.UnmarshalTypeError "array"))

/-- Whether the scanner ends a top-level value at its last byte (objects and
arrays) or one byte later (literals, numbers and strings). -/
def endsAtLastByte (val : Value) : Bool :=
  match val with
  | Value.array _ => true
  | Value.object _ => true
  | _ => false

/-- The call `json.NewDecoder(r).Decode(&v)` on a reader holding `data`: the
first JSON value of the stream is read (`Decoder.readValue`) and unmarshalled
into `v`. Bytes after the value are left in the stream; the byte right after
a top-level literal, number or string must be whitespace. The result is the
target after the call and the returned error. -/
def Decode (data : Bytes) (v : RequestBody) : State :=
  match skipSpace data with
  | [] => (v, some Err.EOF)
  | _ :: _ =>
    match parseValue (fuelFor data) 0 data with
    | none => (v, some Err.SyntaxError)
    | some (val, rest) =>
      match rest with
      | c :: _ =>
        if !endsAtLastByte val && !isSpace c then (v, some Err.SyntaxError)
        else unmarshal val v
      | [] => unmarshal val v

end json

/-! ## net/http -/

namespace http

/-- Constant `http.StatusOK`. -/
def StatusOK : Nat := 200

/-- Constant `http.StatusBadRequest`. -/
def StatusBadRequest : Nat := 400

/-- Constant `http.StatusMethodNotAllowed`. -/
def StatusMethodNotAllowed : Nat := 405

/-- Constant `http.StatusInternalServerError`. -/
def StatusInternalServerError : Nat := 500

/-- Constant `http.MethodGet`. -/
def MethodGet : String := "GET"

/-- Type `http.Header`, for canonical keys that hold at most one value each
(the handlers only use `Set` and `Del`). -/
abbrev Header := List (String × String)

/-- Method `Header.Del`. -/
def Header.Del (h : Header) (key : String) : Header := h.filter (fun kv => kv.1 != key)

/-- Method `Header.Set`: the key now holds exactly `value`. -/
def Header.Set (h : Header) (key value : String) : Header := (key, value) :: Header.Del h key

/-- Map lookup `_, ok := h[key]`. -/
def Header.has (h : Header) (key : String) : Bool := h.any (fun kv => kv.1 == key)

/-- Method `Header.Get`: the value of the key, or the empty string. -/
def Header.Get (h : Header) (key : String) : String :=
  match h.find? (fun kv => kv.1 == key) with
  | some kv => kv.2
  | none => ""

/-- Type `http.Request`, as far as a handler can read it. -/
structure Request where
  Method : String
  URL : String
  Header : Header
  Body : Bytes

/-- A `http.ResponseWriter` that records the response: the live header map
returned by `Header()`, whether the status line was written, the status
code, the headers as they stood when it was written, and the body. The
field `detect` is `http.DetectContentType`. -/
structure ResponseWriter where
  HeaderMap : Header
  wroteHeader : Bool
  Code : Nat
  snapHeader : Header
  Body : Bytes
  detect : Bytes → String

/-- A fresh writer for one request (status 200 until a header is written). -/
def NewRecorder (detect : Bytes → String) : ResponseWriter :=
  { HeaderMap := [], wroteHeader := false, Code := 200, snapHeader := [], Body := [],
    detect := detect }

/-- The call `w.Header().Set(key, value)`. -/
def ResponseWriter.SetHeader (w : ResponseWriter) (key value : String) : ResponseWriter :=
  { w with HeaderMap := Header.Set w.HeaderMap key value }

/-- The call `w.Header().Del(key)`. -/
def ResponseWriter.DelHeader (w : ResponseWriter) (key : String) : ResponseWriter :=
  { w with HeaderMap := Header.Del w.HeaderMap key }

/-- Method `WriteHeader`: the first call fixes the status code and the
headers; later calls change nothing. -/
def ResponseWriter.WriteHeader (w : ResponseWriter) (code : Nat) : ResponseWriter :=
  if w.wroteHeader then w
  else { w with Code := code, wroteHeader := true, snapHeader := w.HeaderMap }

/-- Method `Write`: a first write without a status line writes status 200
first, adding a detected `Content-Type` when none is set; the bytes are
appended to the body. The second component is the returned error; a
recording writer never fails. -/
def ResponseWriter.Write (w : ResponseWriter) (b : Bytes) : ResponseWriter × Option Bytes :=
  let w1 : ResponseWriter :=
    if w.wroteHeader then w
    else
      let w0 :=
        if !Header.has w.HeaderMap "Content-Type"
            && Header.Get w.HeaderMap "Transfer-Encoding" == "" then
          w.SetHeader "Content-Type" (w.detect b)
        else w
      w0.WriteHeader StatusOK
  ({ w1 with Body := w1.Body ++ b }, none)

/-- Function `http.Error`: replies with the given message and status code
as plain text. The message is written with `fmt.Fprintln`, that is, followed
by a line feed. -/
def Error (w : ResponseWriter) (error : Bytes) (code : Nat) : ResponseWriter :=
  let w := w.DelHeader "Content-Length"
  let w := w.SetHeader "Content-Type" "text/plain; charset=utf-8"
  let w := w.SetHeader "X-Content-Type-Options" "nosniff"
  let w := w.WriteHeader code
  (w.Write (error ++ [0x0A])).1

end http

/-! ## github.com/SebastiaanKlippert/go-wkhtmltopdf -/

namespace wkhtml

/-- Type `uintOption`. -/
structure uintOption where
  value : Nat
  isSet : Bool
  deriving DecidableEq, Repr

/-- Type `stringOption`. -/
structure stringOption where
  value : String
  deriving DecidableEq, Repr

/-- Type `boolOption`. -/
structure boolOption where
  value : Bool
  deriving DecidableEq, Repr

/-- Method `uintOption.Set`. -/
def uintOption.Set (_ : uintOption) (value : Nat) : uintOption := { value := value, isSet := true }

/-- Method `stringOption.Set`. -/
def stringOption.Set (_ : stringOption) (value : String) : stringOption := { value := value }

/-- Method `boolOption.Set`. -/
def boolOption.Set (_ : boolOption) (value : Bool) : boolOption := { value := value }

/-- Constant `OrientationPortrait`. -/
def OrientationPortrait : String := "Portrait"

/-- Type `PageReader`: a page whose HTML is read from `Input`; the field
holds everything the reader delivers. -/
structure PageReader where
  Input : Bytes
  deriving DecidableEq, Repr

/-- Function `NewPageReader` applied to `strings.NewReader(s)`. -/
def NewPageReader (s : Bytes) : PageReader := { Input := s }

/-- Type `PDFGenerator`: the global options the handler sets and the pages. -/
structure PDFGenerator where
  Dpi : uintOption
  Orientation : stringOption
  Grayscale : boolOption
  pages : List PageReader
  deriving DecidableEq, Repr

/-- Function `NewPDFPreparer`: a generator with no option set and no page. -/
def NewPDFPreparer : PDFGenerator :=
  { Dpi := { value := 0, isSet := false }, Orientation := { value := "" },
    Grayscale := { value := false }, pages := [] }

/-- Method `AddPage`. -/
def PDFGenerator.AddPage (pdfg : PDFGenerator) (p : PageReader) : PDFGenerator :=
  { pdfg with pages := pdfg.pages ++ [p] }

/-- A call into the library made by a handler, in program order. -/
inductive Call where
  | NewPDFGenerator
  | DpiSet (value : Nat)
  | OrientationSet (value : String)
  | GrayscaleSet (value : Bool)
  | AddPage (p : PageReader)
  | Create (pdfg : PDFGenerator)
  deriving DecidableEq, Repr

/-- The behaviour of the rendering engine, which lies outside the program:
`findPath` is the error of `NewPDFGenerator` (its text), if any, and
`run pdfg` is the outcome of `pdfg.Create()`: the text of the error, or
the bytes that `pdfg.Bytes()` returns afterwards. -/
structure Env where
  findPath : Option Bytes
  run : PDFGenerator → Except Bytes Bytes

end wkhtml

/-! ## main.go -/

/-- Handler `pdfHandler`: converts HTML to PDF. The result is the writer
after the handler returns and the library calls it made. -/
def pdfHandler (env : wkhtml.Env) (w : http.ResponseWriter) (r : http.Request) :
    http.ResponseWriter × List wkhtml.Call :=
  let decoded := json.Decode r.Body { HTML := [] }
  let body := decoded.1
  let err := decoded.2
  if err ≠ none ∨ body.HTML = [] then
    (http.Error w (go "Invalid request payload. Ensure 'html' field is provided.")
      http.StatusBadRequest, [])
  else
    let calls := [wkhtml.Call.NewPDFGenerator]
    match env.findPath with
    | some err =>
      (http.Error w (go "Failed to initialize PDF generator: " ++ err)
        http.StatusInternalServerError, calls)
    | none =>
      let pdfg := wkhtml.NewPDFPreparer
      let pdfg := { pdfg with Dpi := pdfg.Dpi.Set 300 }
      let calls := calls ++ [wkhtml.Call.DpiSet 300]
      let pdfg := { pdfg with Orientation := pdfg.Orientation.Set wkhtml.OrientationPortrait }
      let calls := calls ++ [wkhtml.Call.OrientationSet wkhtml.OrientationPortrait]
      let pdfg := { pdfg with Grayscale := pdfg.Grayscale.Set false }
      let calls := calls ++ [wkhtml.Call.GrayscaleSet false]
      let pdfg := pdfg.AddPage (wkhtml.NewPageReader body.HTML)
      let calls := calls ++ [wkhtml.Call.AddPage (wkhtml.NewPageReader body.HTML)]
      let calls := calls ++ [wkhtml.Call.Create pdfg]
      match env.run pdfg with
      | Except.error err =>
        (http.Error w (go "Failed to generate PDF: " ++ err)
          http.StatusInternalServerError, calls)
      | Except.ok bytes =>
        let w := w.SetHeader "Content-Type" "application/pdf"
        let w := w.SetHeader "Content-Disposition" "attachment; filename=output.pdf"
        match w.Write bytes with
        | (w, some err) =>
          (http.Error w (go "Failed to write PDF to response: " ++ err)
            http.StatusInternalServerError, calls)
        | (w, none) => (w, calls)

/-- Handler `rootHandler`: answers GET requests to the root path. -/
def rootHandler (w : http.ResponseWriter) (r : http.Request) : http.ResponseWriter :=
  if r.Method = http.MethodGet then
    let w := w.WriteHeader http.StatusOK
    match w.Write (go "Hello") with
    | (w, some _) => http.Error w (go "Failed to write response") http.StatusInternalServerError
    | (w, none) => w
  else
    http.Error w (go "Method not allowed") http.StatusMethodNotAllowed

/-- The response to `r` from `pdfHandler`, served with a fresh writer. -/
def servePDF (detect : Bytes → String) (env : wkhtml.Env) (r : http.Request) :
    http.ResponseWriter :=
  (pdfHandler env (http.NewRecorder detect) r).1

/-- The library calls `pdfHandler` makes on `r`. -/
def callsPDF (detect : Bytes → String) (env : wkhtml.Env) (r : http.Request) :
    List wkhtml.Call :=
  (pdfHandler env (http.NewRecorder detect) r).2

/-- The response to `r` from `rootHandler`, served with a fresh writer. -/
def serveRoot (detect : Bytes → String) (r : http.Request) : http.ResponseWriter :=
  rootHandler (http.NewRecorder detect) r

/-! ## Sample requests and engines -/

/-- A POST request to `/html-to-pdf` carrying `body`. -/
def post (body : Bytes) : http.Request :=
  { Method := "POST", URL := "/html-to-pdf", Header := [], Body := body }

/-- A request to `/` with the given method and no body. -/
def root (method : String) : http.Request :=
  { Method := method, URL := "/", Header := [], Body := [] }

/-- An engine that starts and renders every document to `out`. -/
def engineOK (out : Bytes) : wkhtml.Env := { findPath := none, run := fun _ => Except.ok out }

/-- An engine whose binary cannot be found. -/
def engineMissing (e : Bytes) : wkhtml.Env :=
  { findPath := some e, run := fun _ => Except.ok [] }

/-- An engine that starts and then fails on every document. -/
def engineFailing (e : Bytes) : wkhtml.Env :=
  { findPath := none, run := fun _ => Except.error e }

/-- A content sniffer that calls everything a byte stream. -/
def octet : Bytes → String := fun _ => "application/octet-stream"

/-! ## Theorems -/

open http wkhtml

/-! ### The JSON scanner -/

/-- On non-empty input `DecodeRune` reports a width of at least one byte. -/
theorem utf8.DecodeRune_size_pos (c : UInt8) (cs : Bytes) : 1 ≤ (utf8.DecodeRune (c :: cs)).2 := by
  unfold utf8.DecodeRune
  simp only
  repeat' split
  all_goals simp

namespace json

/-- Skipping whitespace never lengthens the input. -/
theorem skipSpace_length_le (xs : Bytes) : (skipSpace xs).length ≤ xs.length := by
  induction xs with
  | nil => simp [skipSpace]
  | cons c cs ih =>
    unfold skipSpace
    split
    · exact Nat.le_succ_of_le ih
    · exact Nat.le_refl _

/-- What follows a run of digits is no longer than the input. -/
theorem takeDigits_length_le (xs : Bytes) : (takeDigits xs).2.length ≤ xs.length := by
  induction xs with
  | nil => simp [takeDigits]
  | cons c cs ih =>
    unfold takeDigits
    split
    · exact Nat.le_succ_of_le ih
    · exact Nat.le_refl _

/-- A scanned string literal consumes at least its closing quote. -/
theorem scanString_length_lt (n : Nat) : ∀ (xs raw rest : Bytes), xs.length ≤ n →
    scanString xs = some (raw, rest) → rest.length < xs.length := by
  induction n with
  | zero =>
    intro xs raw rest hn h
    cases xs with
    | nil => simp [scanString] at h
    | cons c cs => simp at hn
  | succ n ih =>
    intro xs raw rest hn h
    cases xs with
    | nil => simp [scanString] at h
    | cons c cs =>
      simp only [List.length_cons, Nat.add_le_add_iff_right] at hn
      unfold scanString at h
      split at h
      · simp only [Option.some.injEq, Prod.mk.injEq] at h
        rw [← h.2]
        simp
      · split at h
        · split at h
          · simp at h
          · rename_i e es
            split at h
            · split at h
              · rename_i h1 h2 h3 h4 tl
                split at h
                · simp only [Option.map_eq_some', Prod.mk.injEq, Prod.exists] at h
                  obtain ⟨a, b, hab, _, hb⟩ := h
                  have := ih tl a b (by simp at hn; omega) hab
                  rw [← hb]
                  simp
                  omega
                · simp at h
              · simp at h
            · split at h
              · simp only [Option.map_eq_some', Prod.mk.injEq, Prod.exists] at h
                obtain ⟨a, b, hab, _, hb⟩ := h
                have := ih es a b (by simp at hn; omega) hab
                rw [← hb]
                simp
                omega
              · simp at h
        · split at h
          · simp at h
          · simp only [Option.map_eq_some', Prod.mk.injEq, Prod.exists] at h
            obtain ⟨a, b, hab, _, hb⟩ := h
            have := ih cs a b hn hab
            rw [← hb]
            simp
            omega

/-- What follows an optional fraction is no longer than the input. -/
theorem scanFrac_length_le (xs f rest : Bytes) (h : scanFrac xs = some (f, rest)) :
    rest.length ≤ xs.length := by
  unfold scanFrac at h
  split at h
  · rename_i c cs
    split at h
    · have hd := takeDigits_length_le cs
      split at h
      · simp at h
      · rename_i ds r _ heq
        simp only [Option.some.injEq, Prod.mk.injEq] at h
        rw [heq] at hd
        rw [← h.2]
        simp at hd ⊢
        omega
    · simp only [Option.some.injEq, Prod.mk.injEq] at h
      rw [← h.2]
  · simp only [Option.some.injEq, Prod.mk.injEq] at h
    rw [← h.2]

/-- What follows an optional exponent is no longer than the input. -/
theorem scanExp_length_le (xs f rest : Bytes) (h : scanExp xs = some (f, rest)) :
    rest.length ≤ xs.length := by
  unfold scanExp at h
  split at h
  · rename_i c cs
    split at h
    · have key : ∀ sign : Bytes × Bytes, sign.2.length ≤ cs.length →
          (match takeDigits sign.2 with
            | ([], _) => none
            | (ds, rest) => some (c :: (sign.1 ++ ds), rest)) = some (f, rest) →
          rest.length ≤ (c :: cs).length := by
        intro sign hs hm
        have hd := takeDigits_length_le sign.2
        split at hm
        · simp at hm
        · rename_i ds r _ heq
          simp only [Option.some.injEq, Prod.mk.injEq] at hm
          rw [heq] at hd
          rw [← hm.2]
          simp only [List.length_cons]
          exact Nat.le_succ_of_le (Nat.le_trans hd hs)
      refine key _ ?_ h
      split
      · split
        · simp
        · simp
      · simp
    · simp only [Option.some.injEq, Prod.mk.injEq] at h
      rw [← h.2]
  · simp only [Option.some.injEq, Prod.mk.injEq] at h
    rw [← h.2]

/-- A scanned number consumes at least one digit. -/
theorem scanDigits_length_lt (xs lit rest : Bytes) (h : scanDigits xs = some (lit, rest)) :
    rest.length < xs.length := by
  unfold scanDigits at h
  split at h
  · rename_i c cs
    split at h
    · simp only [Option.bind_eq_some, Option.map_eq_some', Prod.mk.injEq, Prod.exists] at h
      obtain ⟨f1, r1, hf, e1, r2, he, _, hr⟩ := h
      have h1 := scanFrac_length_le _ _ _ hf
      have h2 := scanExp_length_le _ _ _ he
      rw [← hr]
      simp
      omega
    · split at h
      · simp only [Option.bind_eq_some, Option.map_eq_some', Prod.mk.injEq, Prod.exists] at h
        obtain ⟨f1, r1, hf, e1, r2, he, _, hr⟩ := h
        have h0 := takeDigits_length_le cs
        have h1 := scanFrac_length_le _ _ _ hf
        have h2 := scanExp_length_le _ _ _ he
        rw [← hr]
        simp
        omega
      · simp at h
  · simp at h

/-- What follows the letters of a literal is no longer than the input. -/
theorem scanLiteral_length_le (word : Bytes) : ∀ (data rest : Bytes),
    scanLiteral word data = some rest → rest.length ≤ data.length := by
  induction word with
  | nil =>
    intro data rest h
    simp only [scanLiteral, Option.some.injEq] at h
    rw [h]
  | cons w ws ih =>
    intro data rest h
    cases data with
    | nil => simp [scanLiteral] at h
    | cons c cs =>
      simp only [scanLiteral] at h
      split at h
      · exact Nat.le_succ_of_le (ih cs rest h)
      · simp at h

/-- The input after the first non-blank byte is shorter than the input. -/
theorem skipSpace_cons_length {xs : Bytes} {c : UInt8} {cs : Bytes}
    (h : skipSpace xs = c :: cs) : cs.length < xs.length := by
  have := skipSpace_length_le xs
  rw [h] at this
  simpa using this

/-- Every successful parse consumes at least one byte. -/
theorem parse_length_lt (n : Nat) :
    (∀ d data v rest, parseValue n d data = some (v, rest) → rest.length < data.length) ∧
    (∀ d data ms rest, parseMembers n d data = some (ms, rest) → rest.length < data.length) ∧
    (∀ d data es rest, parseElements n d data = some (es, rest) → rest.length < data.length) := by
  induction n with
  | zero =>
    refine ⟨?_, ?_, ?_⟩ <;> intro d data v rest h
    · simp [parseValue] at h
    · simp [parseMembers] at h
    · simp [parseElements] at h
  | succ n ih =>
    obtain ⟨ihV, ihM, ihE⟩ := ih
    refine ⟨?_, ?_, ?_⟩
    · intro d data v rest h
      rw [parseValue] at h
      split at h
      · simp at h
      · rename_i c cs hs
        have hcs := skipSpace_cons_length hs
        split at h
        · split at h
          · simp at h
          · split at h
            · simp at h
            · rename_i b bs hb
              have hbs := skipSpace_cons_length hb
              split at h
              · simp only [Option.some.injEq, Prod.mk.injEq] at h
                rw [← h.2]
                omega
              · simp only [Option.map_eq_some', Prod.mk.injEq, Prod.exists] at h
                obtain ⟨ms, r, hm, _, hr⟩ := h
                have := ihM _ _ _ _ hm
                have hle := skipSpace_length_le cs
                rw [hb] at hle
                rw [← hr]
                omega
        · split at h
          · split at h
            · simp at h
            · split at h
              · simp at h
              · rename_i b bs hb
                have hbs := skipSpace_cons_length hb
                split at h
                · simp only [Option.some.injEq, Prod.mk.injEq] at h
                  rw [← h.2]
                  omega
                · simp only [Option.map_eq_some', Prod.mk.injEq, Prod.exists] at h
                  obtain ⟨ms, r, hm, _, hr⟩ := h
                  have := ihE _ _ _ _ hm
                  have hle := skipSpace_length_le cs
                  rw [hb] at hle
                  rw [← hr]
                  omega
          · split at h
            · simp only [Option.map_eq_some', Prod.mk.injEq, Prod.exists] at h
              obtain ⟨a, r, hm, _, hr⟩ := h
              have := scanString_length_lt _ _ _ _ (Nat.le_refl _) hm
              rw [← hr]
              omega
            · split at h
              · simp only [Option.map_eq_some', Prod.mk.injEq, Prod.exists] at h
                obtain ⟨a, r, hm, _, hr⟩ := h
                have := scanDigits_length_lt _ _ _ hm
                rw [← hr]
                omega
              · split at h
                · simp only [Option.map_eq_some', Prod.mk.injEq, Prod.exists] at h
                  obtain ⟨a, r, hm, _, hr⟩ := h
                  have := scanDigits_length_lt _ _ _ hm
                  have hle := skipSpace_length_le data
                  rw [hs] at hle
                  rw [← hr]
                  omega
                · split at h
                  · simp only [Option.map_eq_some', Prod.mk.injEq, exists_eq_right_right] at h
                    have := scanLiteral_length_le _ _ _ h.1
                    omega
                  · split at h
                    · simp only [Option.map_eq_some', Prod.mk.injEq, exists_eq_right_right] at h
                      have := scanLiteral_length_le _ _ _ h.1
                      omega
                    · split at h
                      · simp only [Option.map_eq_some', Prod.mk.injEq, exists_eq_right_right] at h
                        have := scanLiteral_length_le _ _ _ h.1
                        omega
                      · simp at h
    · intro d data ms rest h
      rw [parseMembers] at h
      split at h
      · simp at h
      · rename_i q qs hq
        have hqs := skipSpace_cons_length hq
        split at h
        · split at h
          · simp at h
          · rename_i key afterKey hk
            have hk' := scanString_length_lt _ _ _ _ (Nat.le_refl _) hk
            split at h
            · simp at h
            · rename_i colon afterColon hc
              have hc' := skipSpace_cons_length hc
              split at h
              · split at h
                · simp at h
                · rename_i v afterValue hv
                  have hv' := ihV _ _ _ _ hv
                  split at h
                  · simp at h
                  · rename_i sep afterSep hsep
                    have hsep' := skipSpace_cons_length hsep
                    split at h
                    · simp only [Option.map_eq_some', Prod.mk.injEq, Prod.exists] at h
                      obtain ⟨a, r, hm, _, hr⟩ := h
                      have := ihM _ _ _ _ hm
                      rw [← hr]
                      omega
                    · split at h
                      · simp only [Option.some.injEq, Prod.mk.injEq] at h
                        rw [← h.2]
                        omega
                      · simp at h
              · simp at h
        · simp at h
    · intro d data es rest h
      rw [parseElements] at h
      split at h
      · simp at h
      · rename_i v afterValue hv
        have hv' := ihV _ _ _ _ hv
        split at h
        · simp at h
        · rename_i sep afterSep hsep
          have hsep' := skipSpace_cons_length hsep
          split at h
          · simp only [Option.map_eq_some', Prod.mk.injEq, Prod.exists] at h
            obtain ⟨a, r, hm, _, hr⟩ := h
            have := ihE _ _ _ _ hm
            rw [← hr]
            omega
          · split at h
            · simp only [Option.some.injEq, Prod.mk.injEq] at h
              rw [← h.2]
              omega
            · simp at h

/-- With fuel above twice the input length, more fuel changes no result of the
parser. -/
theorem parse_fuel (n : Nat) : ∀ m, n ≤ m →
    (∀ d data, 2 * data.length + 1 ≤ n → parseValue n d data = parseValue m d data) ∧
    (∀ d data, 2 * data.length + 1 ≤ n → parseMembers n d data = parseMembers m d data) ∧
    (∀ d data, 2 * data.length + 2 ≤ n → parseElements n d data = parseElements m d data) := by
  induction n with
  | zero =>
    intro m _
    refine ⟨?_, ?_, ?_⟩ <;> intro d data h <;> omega
  | succ n ih =>
    intro m hm
    obtain ⟨m, rfl⟩ : ∃ k, m = k + 1 := ⟨m - 1, by omega⟩
    obtain ⟨ihV, ihM, ihE⟩ := ih m (by omega)
    refine ⟨?_, ?_, ?_⟩
    · intro d data hn
      rw [parseValue, parseValue]
      split
      · rfl
      · rename_i c cs hs
        have hcs := skipSpace_cons_length hs
        split
        · split
          · rfl
          · split
            · rfl
            · rename_i b bs hb
              have hbs := skipSpace_cons_length hb
              split
              · rfl
              · rw [ihM _ _ (by simp only [List.length_cons]; omega)]
        · split
          · split
            · rfl
            · split
              · rfl
              · rename_i b bs hb
                have hbs := skipSpace_cons_length hb
                split
                · rfl
                · rw [ihE _ _ (by simp only [List.length_cons]; omega)]
          · rfl
    · intro d data hn
      rw [parseMembers, parseMembers]
      split
      · rfl
      · rename_i q qs hq
        have hqs := skipSpace_cons_length hq
        split
        · split
          · rfl
          · rename_i key afterKey hk
            have hk' := scanString_length_lt _ _ _ _ (Nat.le_refl _) hk
            split
            · rfl
            · rename_i colon afterColon hc
              have hc' := skipSpace_cons_length hc
              split
              · rw [ihV _ _ (by omega)]
                split
                · rfl
                · rename_i v afterValue hv
                  have hv' := (parse_length_lt m).1 _ _ _ _ hv
                  split
                  · rfl
                  · rename_i sep afterSep hsep
                    have hsep' := skipSpace_cons_length hsep
                    split
                    · rw [ihM _ _ (by omega)]
                    · rfl
              · rfl
        · rfl
    · intro d data hn
      rw [parseElements, parseElements]
      rw [ihV _ _ (by omega)]
      split
      · rfl
      · rename_i v afterValue hv
        have hv' := (parse_length_lt m).1 _ _ _ _ hv
        split
        · rfl
        · rename_i sep afterSep hsep
          have hsep' := skipSpace_cons_length hsep
          split
          · rw [ihE _ _ (by omega)]
          · rfl

/-- The fuel `Decode` and `Valid` run the parser with is enough: more fuel
gives the same result. -/
theorem parseValue_fuelFor (data : Bytes) (d k : Nat) :
    parseValue (fuelFor data + k) d data = parseValue (fuelFor data) d data :=
  ((parse_fuel (fuelFor data) (fuelFor data + k) (Nat.le_add_right _ _)).1 d data
    (by unfold fuelFor; omega)).symm

/-- With fuel above the input length, more fuel changes no result of the loop.
-/
theorem unquoteLoop_fuel (n : Nat) : ∀ m xs, xs.length < n → n ≤ m →
    unquoteLoop n xs = unquoteLoop m xs := by
  induction n with
  | zero =>
    intro m xs h
    omega
  | succ n ih =>
    intro m xs hlen hm
    obtain ⟨m, rfl⟩ : ∃ k, m = k + 1 := ⟨m - 1, by omega⟩
    cases xs with
    | nil => simp [unquoteLoop]
    | cons c cs =>
      simp only [List.length_cons] at hlen
      have hrec : ∀ ys : Bytes, ys.length ≤ cs.length → unquoteLoop n ys = unquoteLoop m ys :=
        fun ys hy => ih m ys (by omega) (by omega)
      have hdr : ((c :: cs).drop (utf8.DecodeRune (c :: cs)).2).length ≤ cs.length := by
        have := utf8.DecodeRune_size_pos c cs
        simp only [List.length_drop, List.length_cons]
        omega
      cases cs with
      | nil =>
        rw [unquoteLoop, unquoteLoop]
        simp only [hrec [] (Nat.le_refl _), hrec _ hdr]
      | cons e es =>
        have hes : es.length ≤ (e :: es).length := by simp
        have hd4 : (es.drop 4).length ≤ (e :: es).length := by
          simp only [List.length_drop, List.length_cons]
          omega
        have hd6 : ((es.drop 4).drop 6).length ≤ (e :: es).length := by
          simp only [List.length_drop, List.length_cons]
          omega
        rw [unquoteLoop, unquoteLoop]
        simp only [hrec es hes, hrec (es.drop 4) hd4, hrec ((es.drop 4).drop 6) hd6,
          hrec (e :: es) (Nat.le_refl _), hrec _ hdr]

/-- The fuel `unquoteBytes` runs its loop with is enough. -/
theorem unquoteLoop_fuel_enough (raw : Bytes) (k : Nat) :
    unquoteLoop (raw.length + 1 + k) raw = unquoteBytes raw :=
  (unquoteLoop_fuel (raw.length + 1) (raw.length + 1 + k) raw (Nat.lt_succ_self _)
    (Nat.le_add_right _ _)).symm

/-- Bytes appended after a non-blank byte are left alone by `skipSpace`. -/
theorem skipSpace_append {a : Bytes} {c : UInt8} {cs : Bytes} (b : Bytes)
    (h : skipSpace a = c :: cs) : skipSpace (a ++ b) = c :: (cs ++ b) := by
  induction a with
  | nil => simp [skipSpace] at h
  | cons x xs ih =>
    rw [skipSpace] at h
    rw [List.cons_append, skipSpace]
    split
    · rename_i hx
      rw [if_pos hx] at h
      exact ih h
    · rename_i hx
      rw [if_neg hx] at h
      rw [← List.cons_append, h, List.cons_append]

/-- A string literal is scanned the same way whatever follows its closing
quote. -/
theorem scanString_append (n : Nat) : ∀ (a raw r b : Bytes), a.length ≤ n →
    scanString a = some (raw, r) → scanString (a ++ b) = some (raw, r ++ b) := by
  induction n with
  | zero =>
    intro a raw r b hn h
    cases a with
    | nil => simp [scanString] at h
    | cons c cs => simp at hn
  | succ n ih =>
    intro a raw r b hn h
    cases a with
    | nil => simp [scanString] at h
    | cons c cs =>
      simp only [List.length_cons, Nat.add_le_add_iff_right] at hn
      rw [List.cons_append]
      unfold scanString at h ⊢
      split at h
      · rename_i hc
        rw [if_pos hc]
        simp only [Option.some.injEq, Prod.mk.injEq] at h
        rw [← h.1, ← h.2]
      · rename_i hc
        rw [if_neg hc]
        split at h
        · rename_i hc2
          rw [if_pos hc2]
          cases cs with
          | nil => simp at h
          | cons e es =>
            simp only at h
            simp only [List.cons_append]
            split at h
            · rename_i he
              rw [if_pos he]
              match es, h, hn with
              | h1 :: h2 :: h3 :: h4 :: tl, h, hn =>
                simp only at h
                simp only [List.cons_append]
                split at h
                · rename_i hh
                  rw [if_pos hh]
                  simp only [Option.map_eq_some', Prod.mk.injEq, Prod.exists] at h
                  obtain ⟨x, y, hxy, hx, hy⟩ := h
                  rw [ih tl x y b (by simp at hn; omega) hxy]
                  simp [hx, hy]
                · simp at h
              | [], h, _ => simp at h
              | [_], h, _ => simp at h
              | [_, _], h, _ => simp at h
              | [_, _, _], h, _ => simp at h
            · rename_i he
              rw [if_neg he]
              split at h
              · rename_i he2
                rw [if_pos he2]
                simp only [Option.map_eq_some', Prod.mk.injEq, Prod.exists] at h
                obtain ⟨x, y, hxy, hx, hy⟩ := h
                rw [ih es x y b (by simp at hn; omega) hxy]
                simp [hx, hy]
              · simp at h
        · rename_i hc2
          rw [if_neg hc2]
          split at h
          · simp at h
          · rename_i hc3
            rw [if_neg hc3]
            simp only [Option.map_eq_some', Prod.mk.injEq, Prod.exists] at h
            obtain ⟨x, y, hxy, hx, hy⟩ := h
            rw [ih cs x y b hn hxy]
            simp [hx, hy]

/-- A run of digits that ends before the end of the input is not affected by
appended bytes. -/
theorem takeDigits_append (a b : Bytes) (h : (takeDigits a).2 ≠ []) :
    takeDigits (a ++ b) = ((takeDigits a).1, (takeDigits a).2 ++ b) := by
  induction a with
  | nil => simp [takeDigits] at h
  | cons c cs ih =>
    rw [List.cons_append]
    unfold takeDigits at h ⊢
    split
    · rename_i hc
      rw [if_pos hc] at h
      simp only [List.cons_eq_cons] at h ⊢
      rw [ih h]
    · rfl

/-- A literal is scanned the same way whatever follows it. -/
theorem scanLiteral_append (word : Bytes) : ∀ (a r b : Bytes),
    scanLiteral word a = some r → scanLiteral word (a ++ b) = some (r ++ b) := by
  induction word with
  | nil =>
    intro a r b h
    simp only [scanLiteral, Option.some.injEq] at h
    simp [scanLiteral, h]
  | cons w ws ih =>
    intro a r b h
    cases a with
    | nil => simp [scanLiteral] at h
    | cons c cs =>
      simp only [scanLiteral] at h
      simp only [List.cons_append, scanLiteral]
      split at h
      · rename_i hc
        rw [if_pos hc]
        exact ih cs r b h
      · simp at h

/-- A fraction that ends before the end of the input is not affected by
appended bytes. -/
theorem scanFrac_append (a f r b : Bytes) (h : scanFrac a = some (f, r)) (hr : r ≠ []) :
    scanFrac (a ++ b) = some (f, r ++ b) := by
  cases a with
  | nil =>
    simp only [scanFrac, Option.some.injEq, Prod.mk.injEq] at h
    exact absurd h.2.symm hr
  | cons c cs =>
    rw [List.cons_append]
    unfold scanFrac at h ⊢
    simp only at h ⊢
    split at h
    · rename_i hc
      rw [if_pos hc]
      split at h
      · simp at h
      · rename_i ds rest hne heq
        simp only [Option.some.injEq, Prod.mk.injEq] at h
        have hrest : (takeDigits cs).2 ≠ [] := by
          rw [heq, h.2]
          exact hr
        rw [takeDigits_append cs b hrest, heq]
        simp only
        rw [← h.1, ← h.2]
    · rename_i hc
      rw [if_neg hc]
      simp only [Option.some.injEq, Prod.mk.injEq] at h
      rw [← h.1, ← h.2]
      rfl

/-- An exponent that ends before the end of the input is not affected by
appended bytes. -/
theorem scanExp_append (a f r b : Bytes) (h : scanExp a = some (f, r)) (hr : r ≠ []) :
    scanExp (a ++ b) = some (f, r ++ b) := by
  cases a with
  | nil =>
    simp only [scanExp, Option.some.injEq, Prod.mk.injEq] at h
    exact absurd h.2.symm hr
  | cons c cs =>
    rw [List.cons_append]
    unfold scanExp at h ⊢
    simp only at h ⊢
    split at h
    · rename_i hc
      rw [if_pos hc]
      have key : ∀ sign : Bytes × Bytes,
          (match takeDigits sign.2 with
            | ([], _) => none
            | (ds, rest) => some (c :: (sign.1 ++ ds), rest)) = some (f, r) →
          (match takeDigits (sign.2 ++ b) with
            | ([], _) => none
            | (ds, rest) => some (c :: (sign.1 ++ ds), rest)) = some (f, r ++ b) := by
        intro sign hm
        split at hm
        · simp at hm
        · rename_i ds rest hne heq
          simp only [Option.some.injEq, Prod.mk.injEq] at hm
          have hrest : (takeDigits sign.2).2 ≠ [] := by
            rw [heq, hm.2]
            exact hr
          rw [takeDigits_append sign.2 b hrest, heq]
          simp only
          rw [← hm.1, ← hm.2]
      cases cs with
      | nil =>
        simp [takeDigits] at h
      | cons s ss =>
        simp only [List.cons_append]
        simp only at h
        by_cases hs : (s == 0x2B || s == 0x2D) = true
        · rw [if_pos hs] at h ⊢
          exact key ([s], ss) h
        · rw [if_neg hs] at h ⊢
          exact key ([], s :: ss) h
    · rename_i hc
      rw [if_neg hc]
      simp only [Option.some.injEq, Prod.mk.injEq] at h
      rw [← h.1, ← h.2]
      rfl

/-- A number that ends before the end of the input is not affected by appended
bytes. -/
theorem scanDigits_append (a lit r b : Bytes) (h : scanDigits a = some (lit, r)) (hr : r ≠ []) :
    scanDigits (a ++ b) = some (lit, r ++ b) := by
  cases a with
  | nil => simp [scanDigits] at h
  | cons c cs =>
    rw [List.cons_append]
    unfold scanDigits at h ⊢
    simp only at h ⊢
    split at h
    · rename_i hc
      rw [if_pos hc]
      simp only [Option.bind_eq_some, Option.map_eq_some', Prod.mk.injEq, Prod.exists] at h
      obtain ⟨f1, r1, hf, e1, r2, he, hl, hr2⟩ := h
      have hr1 : r1 ≠ [] := by
        intro h0
        have := scanExp_length_le _ _ _ he
        rw [h0] at this
        simp only [List.length_nil, Nat.le_zero, List.length_eq_zero] at this
        exact hr (by rw [← hr2, this])
      rw [scanFrac_append cs f1 r1 b hf hr1]
      simp only [Option.some_bind]
      rw [scanExp_append r1 e1 r2 b he (by rw [hr2]; exact hr)]
      simp [hl, hr2]
    · rename_i hc
      rw [if_neg hc]
      split at h
      · rename_i hd
        rw [if_pos hd]
        simp only [Option.bind_eq_some, Option.map_eq_some', Prod.mk.injEq, Prod.exists] at h
        obtain ⟨f1, r1, hf, e1, r2, he, hl, hr2⟩ := h
        have hr1 : r1 ≠ [] := by
          intro h0
          have := scanExp_length_le _ _ _ he
          rw [h0] at this
          simp only [List.length_nil, Nat.le_zero, List.length_eq_zero] at this
          exact hr (by rw [← hr2, this])
        have hr0 : (takeDigits cs).2 ≠ [] := by
          intro h0
          have := scanFrac_length_le _ _ _ hf
          rw [h0] at this
          simp only [List.length_nil, Nat.le_zero, List.length_eq_zero] at this
          exact hr1 this
        rw [takeDigits_append cs b hr0]
        simp only
        rw [scanFrac_append _ f1 r1 b hf hr1]
        simp only [Option.some_bind]
        rw [scanExp_append r1 e1 r2 b he (by rw [hr2]; exact hr)]
        simp [← hl, hr2]
      · simp at h

/-- The parser does not read past the value: bytes appended to the input are
returned unread, provided a number does not end exactly at the end of the
original input. -/
theorem parse_append (n : Nat) :
    (∀ d a v r b, parseValue n d a = some (v, r) →
      (r ≠ [] ∨ ∀ lit, v ≠ Value.number lit) →
      parseValue n d (a ++ b) = some (v, r ++ b)) ∧
    (∀ d a ms r b, parseMembers n d a = some (ms, r) →
      parseMembers n d (a ++ b) = some (ms, r ++ b)) ∧
    (∀ d a es r b, parseElements n d a = some (es, r) →
      parseElements n d (a ++ b) = some (es, r ++ b)) := by
  induction n with
  | zero =>
    refine ⟨?_, ?_, ?_⟩
    · intro d a v r b h
      simp [parseValue] at h
    · intro d a v r b h
      simp [parseMembers] at h
    · intro d a v r b h
      simp [parseElements] at h
  | succ n ih =>
    obtain ⟨ihV, ihM, ihE⟩ := ih
    refine ⟨?_, ?_, ?_⟩
    · intro d a v r b h hcond
      rw [parseValue] at h ⊢
      split at h
      · simp at h
      · rename_i c cs hs
        rw [skipSpace_append b hs]
        simp only
        split at h
        · rename_i hc
          rw [if_pos hc]
          split at h
          · simp at h
          · rename_i hdep
            rw [if_neg hdep]
            split at h
            · simp at h
            · rename_i x xs hx
              rw [skipSpace_append b hx]
              simp only
              split at h
              · rename_i hx2
                rw [if_pos hx2]
                simp only [Option.some.injEq, Prod.mk.injEq] at h
                rw [← h.1, ← h.2]
              · rename_i hx2
                rw [if_neg hx2]
                simp only [Option.map_eq_some', Prod.mk.injEq, Prod.exists] at h
                obtain ⟨ms, r', hm, hv, hr⟩ := h
                have := ihM _ _ _ _ b hm
                rw [List.cons_append] at this
                rw [this]
                simp [hv, hr]
        · rename_i hc
          rw [if_neg hc]
          split at h
          · rename_i hc2
            rw [if_pos hc2]
            split at h
            · simp at h
            · rename_i hdep
              rw [if_neg hdep]
              split at h
              · simp at h
              · rename_i x xs hx
                rw [skipSpace_append b hx]
                simp only
                split at h
                · rename_i hx2
                  rw [if_pos hx2]
                  simp only [Option.some.injEq, Prod.mk.injEq] at h
                  rw [← h.1, ← h.2]
                · rename_i hx2
                  rw [if_neg hx2]
                  simp only [Option.map_eq_some', Prod.mk.injEq, Prod.exists] at h
                  obtain ⟨ms, r', hm, hv, hr⟩ := h
                  have := ihE _ _ _ _ b hm
                  rw [List.cons_append] at this
                  rw [this]
                  simp [hv, hr]
          · rename_i hc2
            rw [if_neg hc2]
            split at h
            · rename_i hc3
              rw [if_pos hc3]
              simp only [Option.map_eq_some', Prod.mk.injEq, Prod.exists] at h
              obtain ⟨raw, r', hm, hv, hr⟩ := h
              rw [scanString_append _ _ _ _ b (Nat.le_refl _) hm]
              simp [hv, hr]
            · rename_i hc3
              rw [if_neg hc3]
              split at h
              · rename_i hc4
                rw [if_pos hc4]
                simp only [Option.map_eq_some', Prod.mk.injEq, Prod.exists] at h
                obtain ⟨lit, r', hm, hv, hr⟩ := h
                have hr' : r' ≠ [] := by
                  rcases hcond with hne | hnum
                  · rw [hr]
                    exact hne
                  · exact absurd hv.symm (hnum _)
                rw [scanDigits_append _ _ _ b hm hr']
                simp [hv, hr]
              · rename_i hc4
                rw [if_neg hc4]
                split at h
                · rename_i hc5
                  rw [if_pos hc5]
                  simp only [Option.map_eq_some', Prod.mk.injEq, Prod.exists] at h
                  obtain ⟨lit, r', hm, hv, hr⟩ := h
                  have hr' : r' ≠ [] := by
                    rcases hcond with hne | hnum
                    · rw [hr]
                      exact hne
                    · exact absurd hv.symm (hnum _)
                  have := scanDigits_append _ _ _ b hm hr'
                  rw [List.cons_append] at this
                  rw [this]
                  simp [hv, hr]
                · rename_i hc5
                  rw [if_neg hc5]
                  split at h
                  · rename_i hc6
                    rw [if_pos hc6]
                    simp only [Option.map_eq_some', Prod.mk.injEq, exists_eq_right_right] at h
                    rw [scanLiteral_append _ _ _ b h.1]
                    simp [h.2]
                  · rename_i hc6
                    rw [if_neg hc6]
                    split at h
                    · rename_i hc7
                      rw [if_pos hc7]
                      simp only [Option.map_eq_some', Prod.mk.injEq, exists_eq_right_right] at h
                      rw [scanLiteral_append _ _ _ b h.1]
                      simp [h.2]
                    · rename_i hc7
                      rw [if_neg hc7]
                      split at h
                      · rename_i hc8
                        rw [if_pos hc8]
                        simp only [Option.map_eq_some', Prod.mk.injEq, exists_eq_right_right] at h
                        rw [scanLiteral_append _ _ _ b h.1]
                        simp [h.2]
                      · simp at h
    · intro d a ms r b h
      rw [parseMembers] at h ⊢
      split at h
      · simp at h
      · rename_i q qs hq
        rw [skipSpace_append b hq]
        simp only
        split at h
        · rename_i hq2
          rw [if_pos hq2]
          split at h
          · simp at h
          · rename_i key afterKey hk
            rw [scanString_append _ _ _ _ b (Nat.le_refl _) hk]
            simp only
            split at h
            · simp at h
            · rename_i colon afterColon hc
              rw [skipSpace_append b hc]
              simp only
              split at h
              · rename_i hcol
                rw [if_pos hcol]
                split at h
                · simp at h
                · rename_i v afterValue hv
                  split at h
                  · simp at h
                  · rename_i sep afterSep hsep
                    have hne : afterValue ≠ [] := by
                      intro h0
                      rw [h0] at hsep
                      simp [skipSpace] at hsep
                    rw [ihV _ _ _ _ b hv (Or.inl hne)]
                    simp only
                    rw [skipSpace_append b hsep]
                    simp only
                    split at h
                    · rename_i hsep2
                      rw [if_pos hsep2]
                      simp only [Option.map_eq_some', Prod.mk.injEq, Prod.exists] at h
                      obtain ⟨ms', r', hm, hv', hr'⟩ := h
                      rw [ihM _ _ _ _ b hm]
                      simp [hv', hr']
                    · rename_i hsep2
                      rw [if_neg hsep2]
                      split at h
                      · rename_i hsep3
                        rw [if_pos hsep3]
                        simp only [Option.some.injEq, Prod.mk.injEq] at h
                        rw [← h.1, ← h.2]
                      · simp at h
              · simp at h
        · simp at h
    · intro d a es r b h
      rw [parseElements] at h ⊢
      split at h
      · simp at h
      · rename_i v afterValue hv
        split at h
        · simp at h
        · rename_i sep afterSep hsep
          have hne : afterValue ≠ [] := by
            intro h0
            rw [h0] at hsep
            simp [skipSpace] at hsep
          rw [ihV _ _ _ _ b hv (Or.inl hne)]
          simp only
          rw [skipSpace_append b hsep]
          simp only
          split at h
          · rename_i hsep2
            rw [if_pos hsep2]
            simp only [Option.map_eq_some', Prod.mk.injEq, Prod.exists] at h
            obtain ⟨es', r', hm, hv', hr'⟩ := h
            rw [ihE _ _ _ _ b hm]
            simp [hv', hr']
          · rename_i hsep2
            rw [if_neg hsep2]
            split at h
            · rename_i hsep3
              rw [if_pos hsep3]
              simp only [Option.some.injEq, Prod.mk.injEq] at h
              rw [← h.1, ← h.2]
            · simp at h

/-- A successful parse starts at a byte that is not whitespace. -/
theorem parseValue_skipSpace_ne_nil {n d : Nat} {a : Bytes} {v : Value} {r : Bytes}
    (h : parseValue n d a = some (v, r)) : ∃ c cs, skipSpace a = c :: cs := by
  cases n with
  | zero => simp [parseValue] at h
  | succ n =>
    rw [parseValue] at h
    split at h
    · simp at h
    · rename_i c cs hs
      exact ⟨c, cs, hs⟩

/-- Bytes that follow a top-level object or array are not read: `Decode`
gives the same result with and without them. -/
theorem Decode_trailing (a junk : Bytes) (val : Value) (r : Bytes) (v : RequestBody)
    (hparse : parseValue (fuelFor a) 0 a = some (val, r))
    (hend : endsAtLastByte val = true) :
    Decode (a ++ junk) v = Decode a v := by
  obtain ⟨c, cs, hs⟩ := parseValue_skipSpace_ne_nil hparse
  have hfuel : fuelFor (a ++ junk) = fuelFor a + 2 * junk.length := by
    unfold fuelFor
    simp only [List.length_append]
    omega
  have hnum : ∀ lit, val ≠ Value.number lit := by
    intro lit hv
    rw [hv] at hend
    simp [endsAtLastByte] at hend
  have h1 : parseValue (fuelFor (a ++ junk)) 0 (a ++ junk) = some (val, r ++ junk) := by
    have h0 : parseValue (fuelFor (a ++ junk)) 0 a = some (val, r) := by
      rw [hfuel, parseValue_fuelFor]
      exact hparse
    exact (parse_append (fuelFor (a ++ junk))).1 0 a val r junk h0 (Or.inr hnum)
  unfold Decode
  rw [skipSpace_append junk hs, hs, h1, hparse]
  simp only
  have hsame : ∀ rest : Bytes,
      (match rest with
        | c :: _ => if (!endsAtLastByte val && !isSpace c) = true then (v, some Err.SyntaxError)
                    else unmarshal val v
        | [] => unmarshal val v) = unmarshal val v := by
    intro rest
    cases rest with
    | nil => rfl
    | cons x xs => simp [hend]
  rw [hsame, hsame]

/-- A valid JSON text whose first non-blank byte is an opening brace parses
to an object. -/
theorem Valid_object (a : Bytes) (hvalid : Valid a = true)
    (hbrace : (skipSpace a).head? = some 0x7B) :
    ∃ ms r, parseValue (fuelFor a) 0 a = some (Value.object ms, r) := by
  unfold Valid at hvalid
  split at hvalid
  · rename_i val rest hp
    have hfuel : fuelFor a = (2 * a.length + 1) + 1 := rfl
    rw [hp]
    rw [hfuel, parseValue] at hp
    cases hs : skipSpace a with
    | nil =>
      rw [hs] at hbrace
      simp at hbrace
    | cons c cs =>
      rw [hs] at hbrace hp
      simp only [List.head?_cons, Option.some.injEq] at hbrace
      subst hbrace
      simp only [beq_self_eq_true, if_true] at hp
      split at hp
      · simp at hp
      · split at hp
        · simp at hp
        · split at hp
          · simp only [Option.some.injEq, Prod.mk.injEq] at hp
            exact ⟨[], rest, by rw [hp.1]⟩
          · simp only [Option.map_eq_some', Prod.mk.injEq, Prod.exists] at hp
            obtain ⟨ms, r, _, hv, _⟩ := hp
            exact ⟨ms, rest, by rw [hv]⟩
  · simp at hvalid

end json

/-! ### The handlers -/

/-- What `http.Error` leaves in a fresh writer. -/
theorem Error_fresh (detect : Bytes → String) (msg : Bytes) (code : Nat) :
    http.Error (NewRecorder detect) msg code =
      { HeaderMap := [("X-Content-Type-Options", "nosniff"),
                      ("Content-Type", "text/plain; charset=utf-8")],
        wroteHeader := true, Code := code,
        snapHeader := [("X-Content-Type-Options", "nosniff"),
                       ("Content-Type", "text/plain; charset=utf-8")],
        Body := msg ++ [0x0A], detect := detect } := by
  rfl

/-- The validation branch of `pdfHandler`. -/
theorem pdfHandler_invalid (env : Env) (w : ResponseWriter) (r : Request)
    (h : (json.Decode r.Body { HTML := [] }).2 ≠ none ∨
         (json.Decode r.Body { HTML := [] }).1.HTML = []) :
    pdfHandler env w r =
      (http.Error w (go "Invalid request payload. Ensure 'html' field is provided.")
        StatusBadRequest, []) := by
  unfold pdfHandler
  simp only [if_pos h]

/-- The branch of `pdfHandler` taken when `NewPDFGenerator` fails. -/
theorem pdfHandler_findPath (env : Env) (w : ResponseWriter) (r : Request) (e : Bytes)
    (h1 : (json.Decode r.Body { HTML := [] }).2 = none)
    (h2 : (json.Decode r.Body { HTML := [] }).1.HTML ≠ [])
    (h3 : env.findPath = some e) :
    pdfHandler env w r =
      (http.Error w (go "Failed to initialize PDF generator: " ++ e)
        StatusInternalServerError, [Call.NewPDFGenerator]) := by
  unfold pdfHandler
  have h : ¬ ((json.Decode r.Body { HTML := [] }).2 ≠ none ∨
      (json.Decode r.Body { HTML := [] }).1.HTML = []) := by
    simp [h1, h2]
  simp only [if_neg h, h3]

/-- The branch of `pdfHandler` taken when `Create` fails. -/
theorem pdfHandler_run_error (env : Env) (w : ResponseWriter) (r : Request) (e : Bytes)
    (h1 : (json.Decode r.Body { HTML := [] }).2 = none)
    (h2 : (json.Decode r.Body { HTML := [] }).1.HTML ≠ [])
    (h3 : env.findPath = none)
    (h4 : env.run { Dpi := { value := 300, isSet := true },
                    Orientation := { value := "Portrait" }, Grayscale := { value := false },
                    pages := [{ Input := (json.Decode r.Body { HTML := [] }).1.HTML }] }
            = Except.error e) :
    pdfHandler env w r =
      (http.Error w (go "Failed to generate PDF: " ++ e) StatusInternalServerError,
       [Call.NewPDFGenerator, Call.DpiSet 300, Call.OrientationSet "Portrait",
        Call.GrayscaleSet false,
        Call.AddPage { Input := (json.Decode r.Body { HTML := [] }).1.HTML },
        Call.Create { Dpi := { value := 300, isSet := true },
                      Orientation := { value := "Portrait" }, Grayscale := { value := false },
                      pages := [{ Input := (json.Decode r.Body { HTML := [] }).1.HTML }] }]) := by
  unfold pdfHandler
  have h : ¬ ((json.Decode r.Body { HTML := [] }).2 ≠ none ∨
      (json.Decode r.Body { HTML := [] }).1.HTML = []) := by
    simp [h1, h2]
  simp only [if_neg h, h3]
  simp only [NewPDFPreparer, uintOption.Set, stringOption.Set, boolOption.Set,
    PDFGenerator.AddPage, NewPageReader, OrientationPortrait, List.nil_append, List.cons_append]
  rw [h4]

/-- The branch of `pdfHandler` taken when `Create` succeeds. -/
theorem pdfHandler_run_ok (env : Env) (w : ResponseWriter) (r : Request) (out : Bytes)
    (h1 : (json.Decode r.Body { HTML := [] }).2 = none)
    (h2 : (json.Decode r.Body { HTML := [] }).1.HTML ≠ [])
    (h3 : env.findPath = none)
    (h4 : env.run { Dpi := { value := 300, isSet := true },
                    Orientation := { value := "Portrait" }, Grayscale := { value := false },
                    pages := [{ Input := (json.Decode r.Body { HTML := [] }).1.HTML }] }
            = Except.ok out) :
    pdfHandler env w r =
      ((((w.SetHeader "Content-Type" "application/pdf").SetHeader "Content-Disposition"
            "attachment; filename=output.pdf").Write out).1,
       [Call.NewPDFGenerator, Call.DpiSet 300, Call.OrientationSet "Portrait",
        Call.GrayscaleSet false,
        Call.AddPage { Input := (json.Decode r.Body { HTML := [] }).1.HTML },
        Call.Create { Dpi := { value := 300, isSet := true },
                      Orientation := { value := "Portrait" }, Grayscale := { value := false },
                      pages := [{ Input := (json.Decode r.Body { HTML := [] }).1.HTML }] }]) := by
  unfold pdfHandler
  have h : ¬ ((json.Decode r.Body { HTML := [] }).2 ≠ none ∨
      (json.Decode r.Body { HTML := [] }).1.HTML = []) := by
    simp [h1, h2]
  simp only [if_neg h, h3]
  simp only [NewPDFPreparer, uintOption.Set, stringOption.Set, boolOption.Set,
    PDFGenerator.AddPage, NewPageReader, OrientationPortrait, List.nil_append, List.cons_append]
  rw [h4]
  rfl

/-- What a successful run leaves in a fresh writer. -/
theorem ok_fresh (detect : Bytes → String) (out : Bytes) :
    ((((NewRecorder detect).SetHeader "Content-Type" "application/pdf").SetHeader
        "Content-Disposition" "attachment; filename=output.pdf").Write out).1 =
      { HeaderMap := [("Content-Disposition", "attachment; filename=output.pdf"),
                      ("Content-Type", "application/pdf")],
        wroteHeader := true, Code := 200,
        snapHeader := [("Content-Disposition", "attachment; filename=output.pdf"),
                       ("Content-Type", "application/pdf")],
        Body := out, detect := detect } := by
  rfl

/-- The three cases a run of `pdfHandler` can end in after validation. -/
theorem pdfHandler_valid_cases (env : Env) (w : ResponseWriter) (r : Request)
    (h1 : (json.Decode r.Body { HTML := [] }).2 = none)
    (h2 : (json.Decode r.Body { HTML := [] }).1.HTML ≠ []) :
    (∃ e, env.findPath = some e ∧
        pdfHandler env w r =
          (http.Error w (go "Failed to initialize PDF generator: " ++ e)
            StatusInternalServerError, [Call.NewPDFGenerator])) ∨
    (∃ e, env.findPath = none ∧
        pdfHandler env w r =
          (http.Error w (go "Failed to generate PDF: " ++ e) StatusInternalServerError,
           [Call.NewPDFGenerator, Call.DpiSet 300, Call.OrientationSet "Portrait",
            Call.GrayscaleSet false,
            Call.AddPage { Input := (json.Decode r.Body { HTML := [] }).1.HTML },
            Call.Create { Dpi := { value := 300, isSet := true },
                          Orientation := { value := "Portrait" },
                          Grayscale := { value := false },
                          pages := [{ Input := (json.Decode r.Body { HTML := [] }).1.HTML }] }])) ∨
    (∃ out, env.findPath = none ∧
        pdfHandler env w r =
          ((((w.SetHeader "Content-Type" "application/pdf").SetHeader "Content-Disposition"
                "attachment; filename=output.pdf").Write out).1,
           [Call.NewPDFGenerator, Call.DpiSet 300, Call.OrientationSet "Portrait",
            Call.GrayscaleSet false,
            Call.AddPage { Input := (json.Decode r.Body { HTML := [] }).1.HTML },
            Call.Create { Dpi := { value := 300, isSet := true },
                          Orientation := { value := "Portrait" },
                          Grayscale := { value := false },
                          pages := [{ Input := (json.Decode r.Body { HTML := [] }).1.HTML }] }])) := by
  cases h3 : env.findPath with
  | some e => exact Or.inl ⟨e, rfl, pdfHandler_findPath env w r e h1 h2 h3⟩
  | none =>
    cases h4 : env.run ⟨⟨300, true⟩, ⟨"Portrait"⟩, ⟨false⟩,
        [⟨(json.Decode r.Body ⟨[]⟩).1.HTML⟩]⟩ with
    | error e => exact Or.inr (Or.inl ⟨e, rfl, pdfHandler_run_error env w r e h1 h2 h3 h4⟩)
    | ok out => exact Or.inr (Or.inr ⟨out, rfl, pdfHandler_run_ok env w r out h1 h2 h3 h4⟩)

/-- C1 (as stated, refuted): for the body `{}`, which decodes without error
and leaves `html` empty, the response body is not the message itself: a line
feed follows it. -/
theorem pdfHandler_empty_object_body_is_not_bare_message :
    (json.Decode (post (go "\x7b\x7d")).Body { HTML := [] }).2 = none ∧
    (json.Decode (post (go "\x7b\x7d")).Body { HTML := [] }).1.HTML = [] ∧
    (servePDF octet (engineOK []) (post (go "\x7b\x7d"))).Code = 400 ∧
    (servePDF octet (engineOK []) (post (go "\x7b\x7d"))).Body ≠
      go "Invalid request payload. Ensure 'html' field is provided." := by
  decide

/-- C1 (amended): when decoding the body leaves `html` empty (the field is
absent, the empty string or null), then whatever the engine does the
response has status 400 and its body is the message "Invalid request
payload. Ensure 'html' field is provided." followed by one line feed. -/
theorem pdfHandler_empty_html_is_400 (detect : Bytes → String) (env : Env) (r : Request)
    (hempty : (json.Decode r.Body { HTML := [] }).1.HTML = []) :
    (servePDF detect env r).Code = 400 ∧
    (servePDF detect env r).Body =
      go "Invalid request payload. Ensure 'html' field is provided." ++ [0x0A] := by
  unfold servePDF
  rw [pdfHandler_invalid env _ r (Or.inr hempty), Error_fresh]
  exact ⟨rfl, rfl⟩

/-- C1 (amended), instances: the bodies `{}`, `{"html":""}` and
`{"html":null}`, with an engine that would succeed. -/
theorem pdfHandler_empty_html_is_400_witness :
    ((servePDF octet (engineOK [1]) (post (go "\x7b\x7d"))).Code = 400 ∧
     (servePDF octet (engineOK [1]) (post (go "\x7b\x7d"))).Body =
        go "Invalid request payload. Ensure 'html' field is provided." ++ [0x0A]) ∧
    ((servePDF octet (engineOK [1]) (post (go "\x7b\"html\":\"\"\x7d"))).Code = 400 ∧
     (servePDF octet (engineOK [1]) (post (go "\x7b\"html\":\"\"\x7d"))).Body =
        go "Invalid request payload. Ensure 'html' field is provided." ++ [0x0A]) ∧
    ((servePDF octet (engineOK [1]) (post (go "\x7b\"html\":null\x7d"))).Code = 400 ∧
     (servePDF octet (engineOK [1]) (post (go "\x7b\"html\":null\x7d"))).Body =
        go "Invalid request payload. Ensure 'html' field is provided." ++ [0x0A]) :=
  ⟨pdfHandler_empty_html_is_400 octet (engineOK [1]) (post (go "\x7b\x7d"))
      (by decide),
   pdfHandler_empty_html_is_400 octet (engineOK [1]) (post (go "\x7b\"html\":\"\"\x7d"))
      (by decide),
   pdfHandler_empty_html_is_400 octet (engineOK [1]) (post (go "\x7b\"html\":null\x7d"))
      (by decide)⟩

/-- Bytes that follow a top-level JSON object in the body do not change
what `pdfHandler` does. -/
theorem pdfHandler_trailing (env : Env) (w : ResponseWriter) (r : Request) (a junk : Bytes)
    (hvalid : json.Valid a = true) (hbrace : (json.skipSpace a).head? = some 0x7B) :
    pdfHandler env w { r with Body := a ++ junk } = pdfHandler env w { r with Body := a } := by
  obtain ⟨ms, rest, hparse⟩ := json.Valid_object a hvalid hbrace
  unfold pdfHandler
  simp only [json.Decode_trailing a junk (json.Value.object ms) rest _ hparse rfl]

/-- C2 (as stated, refuted): the body `{"html":"x"}junk`, a valid JSON
object followed by the bytes `junk`, is not valid JSON, yet with a working
engine the response has status 200. -/
theorem pdfHandler_trailing_bytes_answered_200 :
    json.Valid (go "\x7b\"html\":\"x\"\x7d") = true ∧
    json.Valid (post (go "\x7b\"html\":\"x\"\x7djunk")).Body = false ∧
    (servePDF octet (engineOK (go "%PDF")) (post (go "\x7b\"html\":\"x\"\x7djunk"))).Code = 200 := by
  decide

/-- C2 (amended): when decoding the first JSON value of the body returns an
error, the response has status 400; and when valid JSON that is an object
is followed by further bytes, the response is the one to the object alone:
the bytes after it are not read. -/
theorem pdfHandler_decode_error_is_400 (detect : Bytes → String) (env : Env) (r : Request) :
    ((json.Decode r.Body { HTML := [] }).2 ≠ none → (servePDF detect env r).Code = 400) ∧
    (∀ a junk : Bytes, json.Valid a = true → (json.skipSpace a).head? = some 0x7B →
      servePDF detect env { r with Body := a ++ junk }
        = servePDF detect env { r with Body := a }) := by
  constructor
  · intro herr
    unfold servePDF
    rw [pdfHandler_invalid env _ r (Or.inl herr), Error_fresh]
    rfl
  · intro a junk hvalid hbrace
    unfold servePDF
    rw [pdfHandler_trailing env _ r a junk hvalid hbrace]

/-- C2 (amended), instances: the body `junk` is answered 400 even with an
engine that would succeed, and the body `{"html":"x"}junk` is answered like
`{"html":"x"}`. -/
theorem pdfHandler_decode_error_is_400_witness :
    (servePDF octet (engineOK (go "%PDF")) (post (go "junk"))).Code = 400 ∧
    servePDF octet (engineOK (go "%PDF"))
        { post [] with Body := go "\x7b\"html\":\"x\"\x7d" ++ go "junk" }
      = servePDF octet (engineOK (go "%PDF"))
        { post [] with Body := go "\x7b\"html\":\"x\"\x7d" } :=
  ⟨(pdfHandler_decode_error_is_400 octet (engineOK (go "%PDF")) (post (go "junk"))).1
      (by decide),
   (pdfHandler_decode_error_is_400 octet (engineOK (go "%PDF")) (post [])).2
      (go "\x7b\"html\":\"x\"\x7d") (go "junk") (by decide) (by decide)⟩

/-- C3: when the body decodes to a non-empty `html`, `NewPDFGenerator`
succeeds and `Create` succeeds with output `out`, the response has status
200, `Content-Type: application/pdf`, `Content-Disposition: attachment;
filename=output.pdf`, and its body is `out`. -/
theorem pdfHandler_success (detect : Bytes → String) (env : Env) (r : Request) (out : Bytes)
    (hdec : (json.Decode r.Body { HTML := [] }).2 = none)
    (hhtml : (json.Decode r.Body { HTML := [] }).1.HTML ≠ [])
    (hnew : env.findPath = none)
    (hrun : env.run { Dpi := { value := 300, isSet := true },
                      Orientation := { value := "Portrait" }, Grayscale := { value := false },
                      pages := [{ Input := (json.Decode r.Body { HTML := [] }).1.HTML }] }
              = Except.ok out) :
    (servePDF detect env r).Code = 200 ∧
    Header.Get (servePDF detect env r).snapHeader "Content-Type" = "application/pdf" ∧
    Header.Get (servePDF detect env r).snapHeader "Content-Disposition"
      = "attachment; filename=output.pdf" ∧
    (servePDF detect env r).Body = out := by
  unfold servePDF
  rw [pdfHandler_run_ok env _ r out hdec hhtml hnew hrun, ok_fresh]
  exact ⟨rfl, rfl, rfl, rfl⟩

/-- C3, instance: the body `{"html":"<b>hi</b>"}` and an engine that renders
to the four bytes `%PDF`. -/
theorem pdfHandler_success_witness :
    (servePDF octet (engineOK (go "%PDF")) (post (go "\x7b\"html\":\"<b>hi</b>\"\x7d"))).Code = 200 ∧
    Header.Get (servePDF octet (engineOK (go "%PDF"))
        (post (go "\x7b\"html\":\"<b>hi</b>\"\x7d"))).snapHeader "Content-Type"
      = "application/pdf" ∧
    Header.Get (servePDF octet (engineOK (go "%PDF"))
        (post (go "\x7b\"html\":\"<b>hi</b>\"\x7d"))).snapHeader "Content-Disposition"
      = "attachment; filename=output.pdf" ∧
    (servePDF octet (engineOK (go "%PDF")) (post (go "\x7b\"html\":\"<b>hi</b>\"\x7d"))).Body
      = go "%PDF" :=
  pdfHandler_success octet (engineOK (go "%PDF")) (post (go "\x7b\"html\":\"<b>hi</b>\"\x7d"))
    (go "%PDF") (by decide) (by decide) rfl rfl

/-- C4 (as stated, refuted): with an engine whose start fails with the text
`boom`, the response to `{"html":"x"}` has status 500 but its body is not
the prefix followed by `boom` alone: a line feed follows. -/
theorem pdfHandler_missing_engine_body_has_line_feed :
    (json.Decode (post (go "\x7b\"html\":\"x\"\x7d")).Body { HTML := [] }).2 = none ∧
    (json.Decode (post (go "\x7b\"html\":\"x\"\x7d")).Body { HTML := [] }).1.HTML ≠ [] ∧
    (engineMissing (go "boom")).findPath = some (go "boom") ∧
    (servePDF octet (engineMissing (go "boom")) (post (go "\x7b\"html\":\"x\"\x7d"))).Code = 500 ∧
    (servePDF octet (engineMissing (go "boom")) (post (go "\x7b\"html\":\"x\"\x7d"))).Body ≠
      go "Failed to initialize PDF generator: " ++ go "boom" := by
  decide

/-- C4 (amended): for a request that passes validation, if `NewPDFGenerator`
fails with error text `e` the response has status 500 and body "Failed to
initialize PDF generator: " followed by `e` and one line feed; if it succeeds
and `Create` fails with `e` the response has status 500 and body "Failed to
generate PDF: " followed by `e` and one line feed. In both cases the
`Content-Type` sent is `text/plain; charset=utf-8`, not `application/pdf`,
and no `Content-Disposition` header is sent. -/
theorem pdfHandler_engine_failure_is_500 (detect : Bytes → String) (env : Env) (r : Request)
    (hdec : (json.Decode r.Body { HTML := [] }).2 = none)
    (hhtml : (json.Decode r.Body { HTML := [] }).1.HTML ≠ []) :
    (∀ e, env.findPath = some e →
      (servePDF detect env r).Code = 500 ∧
      (servePDF detect env r).Body = go "Failed to initialize PDF generator: " ++ e ++ [0x0A] ∧
      Header.Get (servePDF detect env r).snapHeader "Content-Type" = "text/plain; charset=utf-8" ∧
      Header.Get (servePDF detect env r).snapHeader "Content-Type" ≠ "application/pdf" ∧
      Header.has (servePDF detect env r).snapHeader "Content-Disposition" = false) ∧
    (∀ e, env.findPath = none →
      env.run { Dpi := { value := 300, isSet := true },
                Orientation := { value := "Portrait" }, Grayscale := { value := false },
                pages := [{ Input := (json.Decode r.Body { HTML := [] }).1.HTML }] }
        = Except.error e →
      (servePDF detect env r).Code = 500 ∧
      (servePDF detect env r).Body = go "Failed to generate PDF: " ++ e ++ [0x0A] ∧
      Header.Get (servePDF detect env r).snapHeader "Content-Type" = "text/plain; charset=utf-8" ∧
      Header.Get (servePDF detect env r).snapHeader "Content-Type" ≠ "application/pdf" ∧
      Header.has (servePDF detect env r).snapHeader "Content-Disposition" = false) := by
  constructor
  · intro e hnew
    unfold servePDF
    rw [pdfHandler_findPath env _ r e hdec hhtml hnew, Error_fresh]
    exact ⟨rfl, rfl, rfl,
      fun h => absurd (show "text/plain; charset=utf-8" = "application/pdf" from h) (by decide),
      rfl⟩
  · intro e hnew hrun
    unfold servePDF
    rw [pdfHandler_run_error env _ r e hdec hhtml hnew hrun, Error_fresh]
    exact ⟨rfl, rfl, rfl,
      fun h => absurd (show "text/plain; charset=utf-8" = "application/pdf" from h) (by decide),
      rfl⟩

/-- C4 (amended), instances: the body `{"html":"x"}` with an engine that is
missing and with one that fails to render, both with error text `boom`. -/
theorem pdfHandler_engine_failure_is_500_witness :
    ((servePDF octet (engineMissing (go "boom")) (post (go "\x7b\"html\":\"x\"\x7d"))).Code = 500 ∧
     (servePDF octet (engineMissing (go "boom")) (post (go "\x7b\"html\":\"x\"\x7d"))).Body
        = go "Failed to initialize PDF generator: " ++ go "boom" ++ [0x0A] ∧
     Header.Get (servePDF octet (engineMissing (go "boom"))
        (post (go "\x7b\"html\":\"x\"\x7d"))).snapHeader "Content-Type"
        = "text/plain; charset=utf-8" ∧
     Header.Get (servePDF octet (engineMissing (go "boom"))
        (post (go "\x7b\"html\":\"x\"\x7d"))).snapHeader "Content-Type" ≠ "application/pdf" ∧
     Header.has (servePDF octet (engineMissing (go "boom"))
        (post (go "\x7b\"html\":\"x\"\x7d"))).snapHeader "Content-Disposition" = false) ∧
    ((servePDF octet (engineFailing (go "boom")) (post (go "\x7b\"html\":\"x\"\x7d"))).Code = 500 ∧
     (servePDF octet (engineFailing (go "boom")) (post (go "\x7b\"html\":\"x\"\x7d"))).Body
        = go "Failed to generate PDF: " ++ go "boom" ++ [0x0A] ∧
     Header.Get (servePDF octet (engineFailing (go "boom"))
        (post (go "\x7b\"html\":\"x\"\x7d"))).snapHeader "Content-Type"
        = "text/plain; charset=utf-8" ∧
     Header.Get (servePDF octet (engineFailing (go "boom"))
        (post (go "\x7b\"html\":\"x\"\x7d"))).snapHeader "Content-Type" ≠ "application/pdf" ∧
     Header.has (servePDF octet (engineFailing (go "boom"))
        (post (go "\x7b\"html\":\"x\"\x7d"))).snapHeader "Content-Disposition" = false) :=
  ⟨(pdfHandler_engine_failure_is_500 octet (engineMissing (go "boom"))
      (post (go "\x7b\"html\":\"x\"\x7d")) (by decide) (by decide)).1 (go "boom") rfl,
   (pdfHandler_engine_failure_is_500 octet (engineFailing (go "boom"))
      (post (go "\x7b\"html\":\"x\"\x7d")) (by decide) (by decide)).2 (go "boom") rfl rfl⟩

/-- C5: `rootHandler` answers a request whose method is exactly `GET` with
status 200 and the five bytes `Hello`, and a request with any other method
with status 405; two requests with the same method get the same response,
whatever their paths, headers and bodies. -/
theorem rootHandler_by_method (detect : Bytes → String) (r : Request) :
    (r.Method = "GET" →
      (serveRoot detect r).Code = 200 ∧
      (serveRoot detect r).Body = [0x48, 0x65, 0x6C, 0x6C, 0x6F]) ∧
    (r.Method ≠ "GET" → (serveRoot detect r).Code = 405) ∧
    (∀ r2 : Request, r2.Method = r.Method → serveRoot detect r2 = serveRoot detect r) := by
  refine ⟨?_, ?_, ?_⟩
  · intro h
    have hm : r.Method = MethodGet := h
    unfold serveRoot rootHandler
    rw [if_pos hm]
    exact ⟨rfl, rfl⟩
  · intro h
    have hm : ¬ r.Method = MethodGet := h
    unfold serveRoot rootHandler
    rw [if_neg hm, Error_fresh]
    rfl
  · intro r2 h
    unfold serveRoot rootHandler
    rw [h]

/-- C5, instances: GET, POST, HEAD, lower-case `get` and the empty method;
and a GET request with another path, a header and a body. -/
theorem rootHandler_by_method_witness :
    ((serveRoot octet (root "GET")).Code = 200 ∧
     (serveRoot octet (root "GET")).Body = [0x48, 0x65, 0x6C, 0x6C, 0x6F]) ∧
    (serveRoot octet (root "POST")).Code = 405 ∧
    (serveRoot octet (root "HEAD")).Code = 405 ∧
    (serveRoot octet (root "get")).Code = 405 ∧
    (serveRoot octet (root "")).Code = 405 ∧
    serveRoot octet { Method := "GET", URL := "/x", Header := [("Accept", "text/html")],
                      Body := go "abc" } = serveRoot octet (root "GET") :=
  ⟨(rootHandler_by_method octet (root "GET")).1 rfl,
   (rootHandler_by_method octet (root "POST")).2.1 (by decide),
   (rootHandler_by_method octet (root "HEAD")).2.1 (by decide),
   (rootHandler_by_method octet (root "get")).2.1 (by decide),
   (rootHandler_by_method octet (root "")).2.1 (by decide),
   (rootHandler_by_method octet (root "GET")).2.2 _ rfl⟩

/-- A request fails validation or ends in one of the three later cases. -/
theorem pdfHandler_outcome (detect : Bytes → String) (env : Env) (r : Request) :
    (((json.Decode r.Body { HTML := [] }).2 ≠ none ∨
        (json.Decode r.Body { HTML := [] }).1.HTML = []) ∧
      (servePDF detect env r).Code = 400 ∧ callsPDF detect env r = []) ∨
    (((json.Decode r.Body { HTML := [] }).2 = none ∧
        (json.Decode r.Body { HTML := [] }).1.HTML ≠ []) ∧
      (∃ e, env.findPath = some e) ∧
      (servePDF detect env r).Code = 500 ∧ callsPDF detect env r = [Call.NewPDFGenerator]) ∨
    (((json.Decode r.Body { HTML := [] }).2 = none ∧
        (json.Decode r.Body { HTML := [] }).1.HTML ≠ []) ∧
      env.findPath = none ∧
      ((servePDF detect env r).Code = 500 ∨ (servePDF detect env r).Code = 200) ∧
      callsPDF detect env r =
        [Call.NewPDFGenerator, Call.DpiSet 300, Call.OrientationSet "Portrait",
         Call.GrayscaleSet false,
         Call.AddPage { Input := (json.Decode r.Body { HTML := [] }).1.HTML },
         Call.Create { Dpi := { value := 300, isSet := true },
                       Orientation := { value := "Portrait" },
                       Grayscale := { value := false },
                       pages := [{ Input := (json.Decode r.Body { HTML := [] }).1.HTML }] }]) := by
  by_cases hv : (json.Decode r.Body { HTML := [] }).2 ≠ none ∨
      (json.Decode r.Body { HTML := [] }).1.HTML = []
  · refine Or.inl ⟨hv, ?_, ?_⟩
    · unfold servePDF
      rw [pdfHandler_invalid env _ r hv, Error_fresh]
      rfl
    · unfold callsPDF
      rw [pdfHandler_invalid env _ r hv]
  · have h1 : (json.Decode r.Body { HTML := [] }).2 = none := by
      by_contra hc
      exact hv (Or.inl hc)
    have h2 : (json.Decode r.Body { HTML := [] }).1.HTML ≠ [] := fun hc => hv (Or.inr hc)
    rcases pdfHandler_valid_cases env (NewRecorder detect) r h1 h2 with
      ⟨e, hf, hp⟩ | ⟨e, hf, hp⟩ | ⟨out, hf, hp⟩
    · refine Or.inr (Or.inl ⟨⟨h1, h2⟩, ⟨e, hf⟩, ?_, ?_⟩)
      · unfold servePDF
        rw [hp, Error_fresh]
        rfl
      · unfold callsPDF
        rw [hp]
    · refine Or.inr (Or.inr ⟨⟨h1, h2⟩, hf, Or.inl ?_, ?_⟩)
      · unfold servePDF
        rw [hp, Error_fresh]
        rfl
      · unfold callsPDF
        rw [hp]
    · refine Or.inr (Or.inr ⟨⟨h1, h2⟩, hf, Or.inr ?_, ?_⟩)
      · unfold servePDF
        rw [hp, ok_fresh]
      · unfold callsPDF
        rw [hp]

/-- The generator of every `Create` call that `pdfHandler` makes. -/
theorem create_call_generator (detect : Bytes → String) (env : Env) (r : Request)
    (pdfg : PDFGenerator) (h : Call.Create pdfg ∈ callsPDF detect env r) :
    pdfg = { Dpi := { value := 300, isSet := true }, Orientation := { value := "Portrait" },
             Grayscale := { value := false },
             pages := [{ Input := (json.Decode r.Body { HTML := [] }).1.HTML }] } := by
  rcases pdfHandler_outcome detect env r with
    ⟨_, _, hc⟩ | ⟨_, _, _, hc⟩ | ⟨_, _, _, hc⟩
  · rw [hc] at h
    simp at h
  · rw [hc] at h
    simp at h
  · rw [hc] at h
    simpa using h

/-- C6: every `Create` call of `pdfHandler` is made on a generator with DPI
set to 300, orientation `Portrait` and grayscale off, and any two such
calls, for whatever requests and engines, carry the same three options. -/
theorem pdfHandler_fixed_options (d1 d2 : Bytes → String) (env1 env2 : Env) (r1 r2 : Request)
    (g1 g2 : PDFGenerator)
    (h1 : Call.Create g1 ∈ callsPDF d1 env1 r1)
    (h2 : Call.Create g2 ∈ callsPDF d2 env2 r2) :
    (g1.Dpi = { value := 300, isSet := true } ∧ g1.Orientation = { value := "Portrait" } ∧
      g1.Grayscale = { value := false }) ∧
    (g2.Dpi = g1.Dpi ∧ g2.Orientation = g1.Orientation ∧ g2.Grayscale = g1.Grayscale) := by
  rw [create_call_generator d1 env1 r1 g1 h1, create_call_generator d2 env2 r2 g2 h2]
  exact ⟨⟨rfl, rfl, rfl⟩, rfl, rfl, rfl⟩

/-- C6, instance: a POST whose page is `x` and a DELETE with another header
and a body that asks for other options, on different engines; both reach
`Create`, with the same three options. -/
theorem pdfHandler_fixed_options_witness :
    Call.Create ⟨⟨300, true⟩, ⟨"Portrait"⟩, ⟨false⟩, [⟨go "x"⟩]⟩
      ∈ callsPDF octet (engineOK (go "%PDF")) (post (go "\x7b\"html\":\"x\"\x7d")) ∧
    Call.Create ⟨⟨300, true⟩, ⟨"Portrait"⟩, ⟨false⟩, [⟨go "dpi=72"⟩]⟩
      ∈ callsPDF octet (engineFailing (go "boom"))
          { Method := "DELETE", URL := "/html-to-pdf", Header := [("X-Dpi", "72")],
            Body := go "\x7b\"html\":\"dpi=72\",\"dpi\":72,\"grayscale\":true\x7d" } ∧
    (((⟨⟨300, true⟩, ⟨"Portrait"⟩, ⟨false⟩, [⟨go "x"⟩]⟩ : PDFGenerator).Dpi
        = { value := 300, isSet := true } ∧
      (⟨⟨300, true⟩, ⟨"Portrait"⟩, ⟨false⟩, [⟨go "x"⟩]⟩ : PDFGenerator).Orientation
        = { value := "Portrait" } ∧
      (⟨⟨300, true⟩, ⟨"Portrait"⟩, ⟨false⟩, [⟨go "x"⟩]⟩ : PDFGenerator).Grayscale
        = { value := false }) ∧
     ((⟨⟨300, true⟩, ⟨"Portrait"⟩, ⟨false⟩, [⟨go "dpi=72"⟩]⟩ : PDFGenerator).Dpi
        = (⟨⟨300, true⟩, ⟨"Portrait"⟩, ⟨false⟩, [⟨go "x"⟩]⟩ : PDFGenerator).Dpi ∧
      (⟨⟨300, true⟩, ⟨"Portrait"⟩, ⟨false⟩, [⟨go "dpi=72"⟩]⟩ : PDFGenerator).Orientation
        = (⟨⟨300, true⟩, ⟨"Portrait"⟩, ⟨false⟩, [⟨go "x"⟩]⟩ : PDFGenerator).Orientation ∧
      (⟨⟨300, true⟩, ⟨"Portrait"⟩, ⟨false⟩, [⟨go "dpi=72"⟩]⟩ : PDFGenerator).Grayscale
        = (⟨⟨300, true⟩, ⟨"Portrait"⟩, ⟨false⟩, [⟨go "x"⟩]⟩ : PDFGenerator).Grayscale)) :=
  ⟨by decide, by decide,
   pdfHandler_fixed_options octet octet (engineOK (go "%PDF")) (engineFailing (go "boom"))
    (post (go "\x7b\"html\":\"x\"\x7d"))
    { Method := "DELETE", URL := "/html-to-pdf", Header := [("X-Dpi", "72")],
      Body := go "\x7b\"html\":\"dpi=72\",\"dpi\":72,\"grayscale\":true\x7d" }
    ⟨⟨300, true⟩, ⟨"Portrait"⟩, ⟨false⟩, [⟨go "x"⟩]⟩
    ⟨⟨300, true⟩, ⟨"Portrait"⟩, ⟨false⟩, [⟨go "dpi=72"⟩]⟩
    (by decide) (by decide)⟩

/-- C7 (as stated, refuted): the body `{"html":"<b>hi</b>"}` is well formed,
yet with an engine that cannot be started the response has status 500. -/
theorem pdfHandler_well_formed_answered_500 :
    (json.Decode (post (go "\x7b\"html\":\"<b>hi</b>\"\x7d")).Body { HTML := [] }).2 = none ∧
    (json.Decode (post (go "\x7b\"html\":\"<b>hi</b>\"\x7d")).Body { HTML := [] }).1.HTML
      = go "<b>hi</b>" ∧
    (servePDF octet (engineMissing (go "boom"))
      (post (go "\x7b\"html\":\"<b>hi</b>\"\x7d"))).Code = 500 := by
  decide

/-- C7 (amended): for a well-formed request (the body decodes to a non-empty
`html`), if `NewPDFGenerator` succeeds and `Create` succeeds with a
non-empty output, the response has status 200, `Content-Type:
application/pdf` and a non-empty body. -/
theorem pdfHandler_well_formed_ok (detect : Bytes → String) (env : Env) (r : Request)
    (out : Bytes)
    (hdec : (json.Decode r.Body { HTML := [] }).2 = none)
    (hhtml : (json.Decode r.Body { HTML := [] }).1.HTML ≠ [])
    (hnew : env.findPath = none)
    (hrun : env.run { Dpi := { value := 300, isSet := true },
                      Orientation := { value := "Portrait" }, Grayscale := { value := false },
                      pages := [{ Input := (json.Decode r.Body { HTML := [] }).1.HTML }] }
              = Except.ok out)
    (hout : out ≠ []) :
    (servePDF detect env r).Code = 200 ∧
    Header.Get (servePDF detect env r).snapHeader "Content-Type" = "application/pdf" ∧
    (servePDF detect env r).Body ≠ [] := by
  unfold servePDF
  rw [pdfHandler_run_ok env _ r out hdec hhtml hnew hrun, ok_fresh]
  exact ⟨rfl, rfl, hout⟩

/-- C7 (amended), instance: the body `{"html":"<b>hi</b>"}` and an engine
that renders to `%PDF`. -/
theorem pdfHandler_well_formed_ok_witness :
    (servePDF octet (engineOK (go "%PDF")) (post (go "\x7b\"html\":\"<b>hi</b>\"\x7d"))).Code = 200 ∧
    Header.Get (servePDF octet (engineOK (go "%PDF"))
        (post (go "\x7b\"html\":\"<b>hi</b>\"\x7d"))).snapHeader "Content-Type"
      = "application/pdf" ∧
    (servePDF octet (engineOK (go "%PDF")) (post (go "\x7b\"html\":\"<b>hi</b>\"\x7d"))).Body ≠ [] :=
  pdfHandler_well_formed_ok octet (engineOK (go "%PDF"))
    (post (go "\x7b\"html\":\"<b>hi</b>\"\x7d")) (go "%PDF") (by decide) (by decide) rfl rfl
    (by decide)

/-- C8: every `Create` call of `pdfHandler` is made on a generator holding
exactly one page, whose input is the decoded `html` unchanged; every
`AddPage` call adds that page and there is at most one such call; and a
request that passes validation with an engine that starts does reach
`AddPage` and `Create`. -/
theorem pdfHandler_single_page (detect : Bytes → String) (env : Env) (r : Request) :
    (∀ pdfg, Call.Create pdfg ∈ callsPDF detect env r →
      pdfg.pages = [NewPageReader (json.Decode r.Body { HTML := [] }).1.HTML]) ∧
    (∀ p, Call.AddPage p ∈ callsPDF detect env r →
      p = NewPageReader (json.Decode r.Body { HTML := [] }).1.HTML) ∧
    (callsPDF detect env r).countP
      (fun c => match c with
        | Call.AddPage _ => true
        | _ => false) ≤ 1 ∧
    ((json.Decode r.Body { HTML := [] }).2 = none →
      (json.Decode r.Body { HTML := [] }).1.HTML ≠ [] →
      env.findPath = none →
      Call.AddPage (NewPageReader (json.Decode r.Body { HTML := [] }).1.HTML)
        ∈ callsPDF detect env r ∧
      ∃ pdfg, Call.Create pdfg ∈ callsPDF detect env r) := by
  refine ⟨?_, ?_, ?_, ?_⟩
  · intro pdfg h
    rw [create_call_generator detect env r pdfg h]
    rfl
  · intro p h
    rcases pdfHandler_outcome detect env r with
      ⟨_, _, hc⟩ | ⟨_, _, _, hc⟩ | ⟨_, _, _, hc⟩
    · rw [hc] at h
      simp at h
    · rw [hc] at h
      simp at h
    · rw [hc] at h
      simp at h
      rw [h]
      rfl
  · rcases pdfHandler_outcome detect env r with
      ⟨_, _, hc⟩ | ⟨_, _, _, hc⟩ | ⟨_, _, _, hc⟩
    · rw [hc]
      simp
    · rw [hc]
      simp
    · rw [hc]
      simp [List.countP_cons]
  · intro h1 h2 h3
    rcases pdfHandler_outcome detect env r with
      ⟨hv, _, _⟩ | ⟨_, ⟨e, he⟩, _, _⟩ | ⟨_, _, _, hc⟩
    · rcases hv with hv | hv
      · exact absurd h1 hv
      · exact absurd hv h2
    · rw [h3] at he
      cases he
    · rw [hc]
      refine ⟨?_, ?_⟩
      · simp [NewPageReader]
      · exact ⟨_, List.mem_of_mem_getLast? rfl⟩

/-- C8, instance: a body whose `html` is written with the JSON escapes for
`A` and for a line feed: the page handed over is the decoded text
` <p>A&amp;</p>`, line feed, blank, with its blanks, markup and entity kept. -/
theorem pdfHandler_single_page_witness :
    Call.Create ⟨⟨300, true⟩, ⟨"Portrait"⟩, ⟨false⟩, [⟨go " <p>A&amp;</p>\n "⟩]⟩
      ∈ callsPDF octet (engineOK (go "%PDF"))
          (post (go "\x7b\"html\":\" <p>\\u0041&amp;</p>\\n \"\x7d")) ∧
    (⟨⟨300, true⟩, ⟨"Portrait"⟩, ⟨false⟩, [⟨go " <p>A&amp;</p>\n "⟩]⟩ : PDFGenerator).pages =
      [NewPageReader (json.Decode
        (post (go "\x7b\"html\":\" <p>\\u0041&amp;</p>\\n \"\x7d")).Body { HTML := [] }).1.HTML] :=
  ⟨by decide,
   (pdfHandler_single_page octet (engineOK (go "%PDF"))
      (post (go "\x7b\"html\":\" <p>\\u0041&amp;</p>\\n \"\x7d"))).1 _ (by decide)⟩

/-- C9: `pdfHandler` calls the library exactly when the body decodes without
error to a non-empty `html`: the call `NewPDFGenerator` is made if and only
if that holds, a request answered 400 makes no library call at all, and a
request for which it holds is answered 200 or 500. (`Create` is then called
only if moreover `NewPDFGenerator` succeeded.) -/
theorem pdfHandler_engine_iff_valid (detect : Bytes → String) (env : Env) (r : Request) :
    (Call.NewPDFGenerator ∈ callsPDF detect env r ↔
      ((json.Decode r.Body { HTML := [] }).2 = none ∧
        (json.Decode r.Body { HTML := [] }).1.HTML ≠ [])) ∧
    (callsPDF detect env r ≠ [] ↔
      ((json.Decode r.Body { HTML := [] }).2 = none ∧
        (json.Decode r.Body { HTML := [] }).1.HTML ≠ [])) ∧
    ((servePDF detect env r).Code = 400 → callsPDF detect env r = []) ∧
    (((json.Decode r.Body { HTML := [] }).2 = none ∧
        (json.Decode r.Body { HTML := [] }).1.HTML ≠ []) →
      (servePDF detect env r).Code = 200 ∨ (servePDF detect env r).Code = 500) ∧
    (∀ pdfg, Call.Create pdfg ∈ callsPDF detect env r →
      ((json.Decode r.Body { HTML := [] }).2 = none ∧
        (json.Decode r.Body { HTML := [] }).1.HTML ≠ []) ∧ env.findPath = none) := by
  rcases pdfHandler_outcome detect env r with
    ⟨hv, hcode, hc⟩ | ⟨hv, _, hcode, hc⟩ | ⟨hv, hf, hcode, hc⟩
  · have hnv : ¬ ((json.Decode r.Body { HTML := [] }).2 = none ∧
        (json.Decode r.Body { HTML := [] }).1.HTML ≠ []) := by
      rintro ⟨h1, h2⟩
      rcases hv with hv | hv
      · exact hv h1
      · exact h2 hv
    rw [hc]
    refine ⟨?_, ?_, ?_, ?_, ?_⟩
    · simp [hnv]
    · simp [hnv]
    · intro _
      rfl
    · intro h
      exact absurd h hnv
    · intro pdfg h
      simp at h
  · rw [hc, hcode]
    refine ⟨?_, ?_, ?_, ?_, ?_⟩
    · simp [hv]
    · simp [hv]
    · intro h
      exact absurd h (by decide)
    · intro _
      exact Or.inr rfl
    · intro pdfg h
      simp at h
  · rw [hc]
    refine ⟨?_, ?_, ?_, ?_, ?_⟩
    · simp [hv]
    · simp [hv]
    · intro h
      rcases hcode with hcode | hcode
      · rw [hcode] at h
        exact absurd h (by decide)
      · rw [hcode] at h
        exact absurd h (by decide)
    · intro _
      exact hcode.symm
    · intro pdfg _
      exact ⟨hv, hf⟩

/-- C9, instances: `{}` is answered 400 without any library call, and
`{"html":"x"}` with a missing engine is answered 500 after a call. -/
theorem pdfHandler_engine_iff_valid_witness :
    callsPDF octet (engineOK (go "%PDF")) (post (go "\x7b\x7d")) = [] ∧
    Call.NewPDFGenerator
      ∈ callsPDF octet (engineMissing (go "boom")) (post (go "\x7b\"html\":\"x\"\x7d")) ∧
    ((servePDF octet (engineMissing (go "boom")) (post (go "\x7b\"html\":\"x\"\x7d"))).Code = 200 ∨
     (servePDF octet (engineMissing (go "boom")) (post (go "\x7b\"html\":\"x\"\x7d"))).Code = 500) :=
  ⟨(pdfHandler_engine_iff_valid octet (engineOK (go "%PDF")) (post (go "\x7b\x7d"))).2.2.1
      (by decide),
   (pdfHandler_engine_iff_valid octet (engineMissing (go "boom"))
      (post (go "\x7b\"html\":\"x\"\x7d"))).1.2 (by decide),
   (pdfHandler_engine_iff_valid octet (engineMissing (go "boom"))
      (post (go "\x7b\"html\":\"x\"\x7d"))).2.2.2.1 (by decide)⟩

/-- C10: `pdfHandler` does not read the method: two requests with the same
body get the same response (status, headers and body) and cause the same
library calls, from any writer and with any engine; and no response of
`pdfHandler` has status 405. -/
theorem pdfHandler_ignores_method (detect : Bytes → String) (env : Env) (r1 r2 : Request)
    (hbody : r1.Body = r2.Body) :
    (∀ w : ResponseWriter, pdfHandler env w r1 = pdfHandler env w r2) ∧
    servePDF detect env r1 = servePDF detect env r2 ∧
    (servePDF detect env r1).Code ≠ 405 := by
  have hsame : ∀ w : ResponseWriter, pdfHandler env w r1 = pdfHandler env w r2 := by
    intro w
    unfold pdfHandler
    rw [hbody]
  refine ⟨hsame, ?_, ?_⟩
  · unfold servePDF
    rw [hsame]
  · rcases pdfHandler_outcome detect env r1 with
      ⟨_, hcode, _⟩ | ⟨_, _, hcode, _⟩ | ⟨_, _, hcode | hcode, _⟩
    all_goals
      rw [hcode]
      decide

/-- C10, instance: a POST and a DELETE with the same body `{"html":"x"}`. -/
theorem pdfHandler_ignores_method_witness :
    servePDF octet (engineOK (go "%PDF")) (post (go "\x7b\"html\":\"x\"\x7d")) =
      servePDF octet (engineOK (go "%PDF"))
        { Method := "DELETE", URL := "/html-to-pdf", Header := [],
          Body := go "\x7b\"html\":\"x\"\x7d" } ∧
    (servePDF octet (engineOK (go "%PDF")) (post (go "\x7b\"html\":\"x\"\x7d"))).Code ≠ 405 :=
  (pdfHandler_ignores_method octet (engineOK (go "%PDF")) (post (go "\x7b\"html\":\"x\"\x7d"))
    { Method := "DELETE", URL := "/html-to-pdf", Header := [],
      Body := go "\x7b\"html\":\"x\"\x7d" } rfl).2

end GoSecEdgarWs
